import Mathlib

/-!
Verification of the `react_investment_research` request-orchestration core.

This file gives a shallow embedding, in Lean 4, of the parts of the
repository that the specification's claims talk about:

* `schemas.py` — the JSON-Schema documents and `validate_schema`;
* `tools/registry.py` — `Tool` and `ToolRegistry`;
* `agent.py` — `_safe_output`, `ResearchAgent.__init__`,
  `_get_available_tools_registry`, `_validate_tickers`,
  `_decide_and_call_tools_llm`, `_call_tool`, `_summarize_snapshot`, `run`;
* `cli.py` — the construction-error handling of `main`.

Modelling conventions:

* JSON-like Python values are modelled by the inductive type `Json`;
  Python numbers (int/float) are modelled as rationals (`Rat`);
  Python `dict`s are insertion-ordered association lists with unique keys.
* Raisable Python exceptions are modelled with `Except PyErr`.
* External collaborators (the LLM backend, the data provider, the tool
  handlers and the cost analyzer) are opaque to the core, exactly as the
  spec describes them; they are modelled as an environment record `Env`
  of pure functions supplying their responses.  A tool handler may answer
  differently on the retry attempt, so handler outputs are indexed by the
  attempt number.
* `jsonschema.Draft7Validator` is modelled by a checker for exactly the
  schema fragment used by `schemas.py` (`type` over object / array /
  string / number / null, `required`, `properties`,
  `additionalProperties`, `items`, `anyOf`).  Error messages mirror the
  library's message shapes; `validate_schema` sorts errors by path and
  returns the first message, as the source does.
-/

/-- JSON-like Python value (`None`, `bool`, `int`/`float`, `str`, `list`,
insertion-ordered `dict`). -/
inductive Json where
  | null : Json
  | bool : Bool → Json
  | num : Rat → Json
  | str : String → Json
  | arr : List Json → Json
  | obj : List (String × Json) → Json
deriving Repr, Inhabited

mutual

/-- Decidable equality for `Json` (the nested inductive prevents deriving). -/
def Json.decEq : (a b : Json) → Decidable (a = b)
  | .null, .null => isTrue rfl
  | .bool a, .bool b =>
      if h : a = b then isTrue (by rw [h])
      else isFalse (by intro hc; cases hc; exact h rfl)
  | .num a, .num b =>
      if h : a = b then isTrue (by rw [h])
      else isFalse (by intro hc; cases hc; exact h rfl)
  | .str a, .str b =>
      if h : a = b then isTrue (by rw [h])
      else isFalse (by intro hc; cases hc; exact h rfl)
  | .arr a, .arr b =>
      match Json.decEqList a b with
      | isTrue h => isTrue (by rw [h])
      | isFalse h => isFalse (by intro hc; cases hc; exact h rfl)
  | .obj a, .obj b =>
      match Json.decEqKvs a b with
      | isTrue h => isTrue (by rw [h])
      | isFalse h => isFalse (by intro hc; cases hc; exact h rfl)
  | .null, .bool _ | .null, .num _ | .null, .str _ | .null, .arr _ | .null, .obj _
  | .bool _, .null | .bool _, .num _ | .bool _, .str _ | .bool _, .arr _ | .bool _, .obj _
  | .num _, .null | .num _, .bool _ | .num _, .str _ | .num _, .arr _ | .num _, .obj _
  | .str _, .null | .str _, .bool _ | .str _, .num _ | .str _, .arr _ | .str _, .obj _
  | .arr _, .null | .arr _, .bool _ | .arr _, .num _ | .arr _, .str _ | .arr _, .obj _
  | .obj _, .null | .obj _, .bool _ | .obj _, .num _ | .obj _, .str _ | .obj _, .arr _ =>
      isFalse (by intro hc; cases hc)

def Json.decEqList : (a b : List Json) → Decidable (a = b)
  | [], [] => isTrue rfl
  | [], _ :: _ => isFalse (by intro hc; cases hc)
  | _ :: _, [] => isFalse (by intro hc; cases hc)
  | x :: xs, y :: ys =>
      match Json.decEq x y, Json.decEqList xs ys with
      | isTrue h₁, isTrue h₂ => isTrue (by rw [h₁, h₂])
      | isFalse h₁, _ => isFalse (by intro hc; cases hc; exact h₁ rfl)
      | _, isFalse h₂ => isFalse (by intro hc; cases hc; exact h₂ rfl)

def Json.decEqKvs : (a b : List (String × Json)) → Decidable (a = b)
  | [], [] => isTrue rfl
  | [], _ :: _ => isFalse (by intro hc; cases hc)
  | _ :: _, [] => isFalse (by intro hc; cases hc)
  | (k, v) :: xs, (l, w) :: ys =>
      if h₀ : k = l then
        match Json.decEq v w, Json.decEqKvs xs ys with
        | isTrue h₁, isTrue h₂ => isTrue (by rw [h₀, h₁, h₂])
        | isFalse h₁, _ => isFalse (by intro hc; cases hc; exact h₁ rfl)
        | _, isFalse h₂ => isFalse (by intro hc; cases hc; exact h₂ rfl)
      else isFalse (by intro hc; cases hc; exact h₀ rfl)

end

instance : DecidableEq Json := Json.decEq

namespace Json

/-- `d.get(k)` on a dict: first binding of the key, if any. -/
def get? (v : Json) (k : String) : Option Json :=
  match v with
  | .obj kvs => (kvs.find? (fun kv => kv.fst = k)).map (·.snd)
  | _ => none

/-- `d.get(k, default)` on a dict. -/
def getD (v : Json) (k : String) (dflt : Json) : Json :=
  (v.get? k).getD dflt

/-- `k in d` membership test on a dict. -/
def hasKey (v : Json) (k : String) : Bool :=
  (v.get? k).isSome

/-- `d[k] = val` on a dict: update the first binding in place, or append a
new binding (CPython dict semantics: updating keeps the key's position). -/
def setKey : Json → String → Json → Json
  | .obj kvs, k, val => .obj (go kvs k val)
  | v, _, _ => v
where
  go : List (String × Json) → String → Json → List (String × Json)
    | [], k, val => [(k, val)]
    | (k₀, v₀) :: rest, k, val =>
        if k₀ = k then (k, val) :: rest else (k₀, v₀) :: go rest k val

/-- Python truthiness of a JSON-like value. -/
def truthy : Json → Bool
  | .null => false
  | .bool b => b
  | .num q => decide (q ≠ 0)
  | .str s => decide (s ≠ "")
  | .arr [] => false
  | .arr (_ :: _) => true
  | .obj [] => false
  | .obj (_ :: _) => true

end Json

/-- A single-quote character, used to build Python `repr` strings. -/
def squote : String := String.singleton (Char.ofNat 39)

/-- Wrap a string in single quotes, as Python `repr` does for most strings
(escapes inside the string are not reproduced; no claim depends on them). -/
def pyQuote (s : String) : String := squote ++ s ++ squote

mutual

/-- Python `repr` of a JSON-like value (as used in `jsonschema` error
messages).  Non-integral numbers are rendered as rationals, which differs
from CPython float `repr`; no claim depends on that rendering. -/
def pyRepr : Json → String
  | .null => "None"
  | .bool true => "True"
  | .bool false => "False"
  | .num q => if q.den = 1 then toString q.num else toString q
  | .str s => pyQuote s
  | .arr xs => "[" ++ pyReprItems xs ++ "]"
  | .obj kvs => "\x7b" ++ pyReprEntries kvs ++ "\x7d"

def pyReprItems : List Json → String
  | [] => ""
  | [x] => pyRepr x
  | x :: rest => pyRepr x ++ ", " ++ pyReprItems rest

def pyReprEntries : List (String × Json) → String
  | [] => ""
  | [(k, v)] => pyQuote k ++ ": " ++ pyRepr v
  | (k, v) :: rest => pyQuote k ++ ": " ++ pyRepr v ++ ", " ++ pyReprEntries rest

end

/-- Python `str` of a JSON-like value (used when a value is interpolated
into an f-string).  `str` of a `str` is the string itself; containers fall
back to `repr`. -/
def pyStr : Json → String
  | .str s => s
  | .null => "None"
  | .bool true => "True"
  | .bool false => "False"
  | v => pyRepr v

/-- Code-point lexicographic strict order on char lists (Python string
comparison; kernel-computable). -/
def charsLt : List Char → List Char → Bool
  | [], [] => false
  | [], _ :: _ => true
  | _ :: _, [] => false
  | c :: cs, d :: ds =>
      if c.val.toNat < d.val.toNat then true
      else if d.val.toNat < c.val.toNat then false
      else charsLt cs ds

/-- Python `<` on strings. -/
def pyStrLt (a b : String) : Bool := charsLt a.data b.data

/-- Python `<=` on strings. -/
def pyStrLe (a b : String) : Bool := !(pyStrLt b a)

/-- JSON-Schema primitive type names used by `schemas.py`. -/
inductive JTy where
  | objectT | arrayT | stringT | numberT | nullT
deriving Repr, DecidableEq

/-- The name of a primitive type as written in the schema documents. -/
def JTy.name : JTy → String
  | .objectT => "object"
  | .arrayT => "array"
  | .stringT => "string"
  | .numberT => "number"
  | .nullT => "null"

/-- Does a value satisfy a `"type"` keyword (Draft 7 semantics; Python
booleans are not JSON numbers)? -/
def JTy.matches : JTy → Json → Bool
  | .objectT, .obj _ => true
  | .arrayT, .arr _ => true
  | .stringT, .str _ => true
  | .numberT, .num _ => true
  | .nullT, .null => true
  | _, _ => false

/-- The fragment of JSON Schema exercised by `schemas.py`:
a bare `type` check, `type: array` with `items`, `type: object` with
`additionalProperties` / `required` / `properties`, and `anyOf`. -/
inductive Schema where
  | ty : JTy → Schema
  | arrOf : Schema → Schema
  | objectS : Bool → List String → List (String × Schema) → Schema
  | anyOf : List Schema → Schema
deriving Repr

/-- Path element of a `jsonschema` validation error (`e.path`). -/
inductive PElem where
  | s : String → PElem
  | n : Nat → PElem
deriving Repr, DecidableEq

/-- Strict order on path elements (Python compares deque elements; paths
produced here never mix an index with a key at the same position). -/
def PElem.lt : PElem → PElem → Bool
  | .n i, .n j => i < j
  | .s a, .s b => pyStrLt a b
  | .n _, .s _ => true
  | .s _, .n _ => false

/-- Lexicographic strict order on error paths (deque comparison). -/
def pathLt : List PElem → List PElem → Bool
  | [], [] => false
  | [], _ :: _ => true
  | _ :: _, [] => false
  | a :: as, b :: bs => if PElem.lt a b then true else if PElem.lt b a then false else pathLt as bs

/-- A validation error: its path and its message. -/
abbrev VErr := List PElem × String

/-- Insert into a sorted list of strings (kernel-computable insertion
sort, modelling Python `sorted` on unique keys). -/
def insertSortedStr (x : String) : List String → List String
  | [] => [x]
  | y :: ys => if pyStrLe x y then x :: y :: ys else y :: insertSortedStr x ys

/-- Python `sorted` on a list of strings. -/
def pySorted (l : List String) : List String := l.foldr insertSortedStr []

/-- `jsonschema` type-error: `repr(instance) is not of type 'name'`. -/
def typeErr (path : List PElem) (t : JTy) (v : Json) : VErr :=
  (path, pyRepr v ++ " is not of type " ++ pyQuote t.name)

/-- `jsonschema` required-error: `'name' is a required property`. -/
def requiredErr (path : List PElem) (name : String) : VErr :=
  (path, pyQuote name ++ " is a required property")

/-- `jsonschema` additionalProperties-error message. -/
def addlErr (path : List PElem) (extras : List String) : VErr :=
  (path,
    "Additional properties are not allowed (" ++
    String.intercalate ", " (extras.map pyQuote) ++
    (if extras.length = 1 then " was unexpected)" else " were unexpected)"))

/-- The required-property errors of an object instance, in `required` order. -/
def requiredErrs (path : List PElem) (kvs : List (String × Json)) (required : List String) :
    List VErr :=
  (required.filter (fun r => (kvs.find? (fun kv => kv.fst = r)).isNone)).map (requiredErr path)

/-- With `additionalProperties: false`, the keys of the instance outside the
declared properties (one error naming them all, keys listed sorted, as the
library formats the message from a set). -/
def addlErrs (path : List PElem) (kvs : List (String × Json)) (props : List (String × Schema)) :
    List VErr :=
  match pySorted ((kvs.map (·.fst)).filter (fun k => (props.find? (fun p => p.fst = k)).isNone)) with
  | [] => []
  | extras => [addlErr path extras]

mutual

/-- All validation errors of `v` against `s`, in `Draft7Validator.iter_errors`
generation order (schema-keyword order `type`, `additionalProperties`,
`required`, `properties`, matching how the documents in `schemas.py` are
written; keywords other than `type` are no-ops on a non-object instance;
`items` errors carry the element index in their path). -/
def schemaErrors (s : Schema) (path : List PElem) (v : Json) : List VErr :=
  match s with
  | .ty t => if t.matches v then [] else [typeErr path t v]
  | .arrOf item =>
      match v with
      | .arr xs =>
          (xs.enum).flatMap (fun p => schemaErrors item (path ++ [.n p.fst]) p.snd)
      | _ => [typeErr path .arrayT v]
  | .objectS addl required props =>
      match v with
      | .obj kvs =>
          (if addl then [] else addlErrs path kvs props) ++
          requiredErrs path kvs required ++
          propErrors path kvs props
      | _ => [typeErr path .objectT v]
  | .anyOf options =>
      if anyOfOk v options then []
      else [(path, pyRepr v ++ " is not valid under any of the given schemas")]

/-- Errors of the present declared properties against their schemas. -/
def propErrors (path : List PElem) (kvs : List (String × Json)) :
    List (String × Schema) → List VErr
  | [] => []
  | (k, s) :: rest =>
      (match (kvs.find? (fun kv => kv.fst = k)).map (·.snd) with
       | some v => schemaErrors s (path ++ [.s k]) v
       | none => []) ++ propErrors path kvs rest

/-- Does `v` satisfy at least one branch of an `anyOf`? -/
def anyOfOk (v : Json) : List Schema → Bool
  | [] => false
  | s :: rest => (schemaErrors s [] v).isEmpty || anyOfOk v rest

end

/-- Stable insertion (an error goes after already-placed errors with an equal
path), matching `sorted(..., key=lambda e: e.path)`. -/
def insertErr (e : VErr) : List VErr → List VErr
  | [] => [e]
  | f :: fs => if pathLt e.fst f.fst then e :: f :: fs else f :: insertErr e fs

/-- Stable sort of validation errors by path. -/
def sortErrs (l : List VErr) : List VErr :=
  l.foldl (fun acc e => insertErr e acc) []

/-- `MARKET_SNAPSHOT_SCHEMA` from `schemas.py`. -/
def MARKET_SNAPSHOT_SCHEMA : Schema :=
  .anyOf
    [ .objectS false
        ["ticker", "asof", "period", "interval", "prices", "risk", "trend", "volume",
         "relative", "notes"]
        [ ("ticker", .ty .stringT),
          ("asof", .ty .stringT),
          ("period", .ty .stringT),
          ("interval", .ty .stringT),
          ("prices", .objectS false ["start", "end", "return_pct", "max_drawdown_pct"]
            [ ("start", .ty .numberT), ("end", .ty .numberT),
              ("return_pct", .ty .numberT), ("max_drawdown_pct", .ty .numberT) ]),
          ("risk", .objectS false ["volatility_ann_pct", "atr_14"]
            [ ("volatility_ann_pct", .ty .numberT), ("atr_14", .ty .numberT) ]),
          ("trend", .objectS false ["sma_20", "sma_50", "trend_label"]
            [ ("sma_20", .ty .numberT), ("sma_50", .ty .numberT),
              ("trend_label", .ty .stringT) ]),
          ("volume", .objectS false ["avg_20d", "latest", "zscore_latest"]
            [ ("avg_20d", .ty .numberT), ("latest", .ty .numberT),
              ("zscore_latest", .ty .numberT) ]),
          ("relative", .ty .arrayT),
          ("notes", .ty .arrayT) ],
      .objectS false ["error", "ticker", "reason"]
        [ ("error", .ty .stringT), ("ticker", .ty .stringT), ("reason", .ty .stringT) ] ]

/-- `FUNDAMENTALS_EVENTS_SCHEMA` from `schemas.py`. -/
def FUNDAMENTALS_EVENTS_SCHEMA : Schema :=
  .anyOf
    [ .objectS false ["ticker", "asof", "fundamentals", "calendar", "flags"]
        [ ("ticker", .ty .stringT),
          ("asof", .ty .stringT),
          ("fundamentals", .ty .objectT),
          ("calendar", .ty .objectT),
          ("flags", .ty .arrayT) ],
      .objectS false ["error", "ticker", "reason"]
        [ ("error", .ty .stringT), ("ticker", .ty .stringT), ("reason", .ty .stringT) ] ]

/-- `FINAL_OUTPUT_SCHEMA` from `schemas.py`. -/
def FINAL_OUTPUT_SCHEMA : Schema :=
  .objectS false
    ["query", "tickers", "summary", "tickers_source", "tickers_inferred", "fundamentals",
     "tool_returns", "data_used", "tool_calls", "limitations", "disclaimer"]
    [ ("query", .ty .stringT),
      ("tickers", .arrOf (.ty .stringT)),
      ("summary", .objectS false ["thesis_bullets", "risks"]
        [ ("thesis_bullets", .arrOf (.ty .stringT)), ("risks", .arrOf (.ty .stringT)) ]),
      ("tickers_source", .ty .stringT),
      ("tickers_inferred", .arrOf (.ty .stringT)),
      ("fundamentals", .objectS true [] []),
      ("tool_returns", .objectS true [] []),
      ("data_used", .arrOf (.ty .stringT)),
      ("tool_calls", .ty .arrayT),
      ("limitations", .arrOf (.ty .stringT)),
      ("disclaimer", .ty .stringT),
      ("cost_analysis", .anyOf [ .ty .nullT, .objectS true [] [] ]) ]

/-- `SCHEMAS` from `schemas.py`: note there is no entry for
`sentiment_analysis`. -/
def SCHEMAS : List (String × Schema) :=
  [ ("market_snapshot", MARKET_SNAPSHOT_SCHEMA),
    ("fundamentals_events", FUNDAMENTALS_EVENTS_SCHEMA),
    ("final_output", FINAL_OUTPUT_SCHEMA) ]

/-- Modelled Python exceptions that the embedded code can raise. -/
inductive PyErr where
  | keyError : String → PyErr
  | valueError : String → PyErr
  | attributeError : String → PyErr
deriving Repr, DecidableEq

/-- `validate_schema` from `schemas.py`: look the schema up in `SCHEMAS`
(raising `KeyError` when the name is absent, as `SCHEMAS[name]` does), sort
the validator's errors by path, and return pass/fail plus the first message. -/
def validate_schema (name : String) (payload : Json) : Except PyErr (Bool × Option String) :=
  match SCHEMAS.find? (fun kv => kv.fst = name) with
  | none => .error (.keyError name)
  | some (_, schema) =>
      match sortErrs (schemaErrors schema [] payload) with
      | [] => .ok (true, none)
      | e :: _ => .ok (false, some e.snd)

/-- Python `repr` of a list of strings (as interpolated into error
messages like `Invalid tool(s): ['x']`). -/
def pyListRepr (l : List String) : String :=
  "[" ++ String.intercalate ", " (l.map pyQuote) ++ "]"

/-- Python `str.upper` (modelled on ASCII; ticker symbols are ASCII). -/
def pyUpper (s : String) : String := String.mk (s.data.map Char.toUpper)

/-- Update the first binding of `k` in place, or append a new binding
(CPython dict assignment semantics). -/
def dictSet {α : Type} : List (String × α) → String → α → List (String × α)
  | [], k, v => [(k, v)]
  | (k₀, v₀) :: rest, k, v =>
      if k₀ = k then (k, v) :: rest else (k₀, v₀) :: dictSet rest k v

/-- First binding of a key in an insertion-ordered dict. -/
def dictGet {α : Type} (l : List (String × α)) (k : String) : Option α :=
  (l.find? (fun kv => kv.fst = k)).map (·.snd)

/-- `Tool` from `tools/registry.py`.  The `handler` callable is not stored:
`ResearchAgent._call_tool` dispatches handlers by tool *name* and never
reads `Tool.handler`, so handler behavior lives in the environment
(`Env.tool_out`).  The input/output schema documents are carried as JSON
data, exactly as the dataclass stores plain dicts. -/
structure Tool where
  name : String
  input_schema : Json
  output_schema : Json
  description : String
  usage_examples : List String := []
  budget_per_ticker : Int := 1
  is_paid : Bool := false
  pricing_usd_per_call : Rat := 0
deriving Repr, DecidableEq

/-- `Tool.__post_init__` validation (the checks on the handler being
callable and the schemas being dicts hold by construction in the model). -/
def Tool.post_init (t : Tool) : Except PyErr Tool := do
  if t.name = "" then throw (.valueError "Tool name cannot be empty")
  if t.budget_per_ticker < 1 then
    throw (.valueError ("budget_per_ticker must be >= 1, got " ++ toString t.budget_per_ticker))
  if t.is_paid ∧ t.pricing_usd_per_call ≤ 0 then
    throw (.valueError ("Paid tools must have pricing_usd_per_call > 0, got " ++
      toString t.pricing_usd_per_call))
  return t

/-- `Tool.to_prompt_description` from `tools/registry.py`. -/
def Tool.to_prompt_description (t : Tool) : String :=
  let examples_str :=
    if t.usage_examples ≠ [] then String.intercalate "\n  " t.usage_examples else "None"
  let paid_marker := if t.is_paid then " [PAID]" else ""
  "- " ++ t.name ++ paid_marker ++ ": " ++ t.description ++
    "\n  Example usage: " ++ examples_str

/-- `ToolRegistry` from `tools/registry.py`: an insertion-ordered mapping
from tool name to `Tool` with unique keys. -/
structure ToolRegistry where
  tools : List (String × Tool) := []
deriving Repr, DecidableEq

namespace ToolRegistry

/-- `ToolRegistry.register`: raises on a duplicate name. -/
def register (r : ToolRegistry) (tool : Tool) : Except PyErr ToolRegistry := do
  if (dictGet r.tools tool.name).isSome then
    throw (.valueError ("Tool " ++ pyQuote tool.name ++ " already registered"))
  return ⟨r.tools ++ [(tool.name, tool)]⟩

/-- `ToolRegistry.get`: tool by name, `None` when absent. -/
def get (r : ToolRegistry) (name : String) : Option Tool :=
  dictGet r.tools name

/-- `ToolRegistry.get_all`. -/
def get_all (r : ToolRegistry) : List (String × Tool) := r.tools

/-- `ToolRegistry.list_names`: the registered names, sorted. -/
def list_names (r : ToolRegistry) : List String :=
  pySorted (r.tools.map (·.fst))

/-- `ToolRegistry.validate_and_filter_tools`. -/
def validate_and_filter_tools (r : ToolRegistry) (requested : List String) :
    List String × List String :=
  (requested.filter (fun n => (dictGet r.tools n).isSome),
   requested.filter (fun n => (dictGet r.tools n).isNone))

/-- `ToolRegistry.create_filtered_registry`: all-or-nothing; the new
registry holds the requested tools in request order. -/
def create_filtered_registry (r : ToolRegistry) (tool_names : List String) :
    Except PyErr ToolRegistry := do
  let (valid, invalid) := r.validate_and_filter_tools tool_names
  if invalid ≠ [] then
    throw (.valueError ("Invalid tool(s) requested: " ++ pyListRepr invalid ++
      ". Available: " ++ pyListRepr r.list_names))
  return ⟨valid.filterMap (fun n => (dictGet r.tools n).map (fun t => (n, t)))⟩

/-- `ToolRegistry.to_prompt_description`. -/
def to_prompt_description (r : ToolRegistry) : String :=
  if r.tools = [] then "No tools available"
  else String.intercalate "\n" (r.tools.map (fun kv => kv.snd.to_prompt_description))

end ToolRegistry

/-- Shorthand for a JSON-Schema leaf document `{"type": t}`. -/
def tyDoc (t : String) : Json := .obj [("type", .str t)]

/-- The `market_snapshot` tool definition from
`ResearchAgent._initialize_tool_registry`. -/
def market_snapshot_tool : Tool :=
  { name := "market_snapshot",
    input_schema := .obj
      [ ("type", .str "object"),
        ("properties", .obj
          [ ("ticker", tyDoc "string"), ("period", tyDoc "string"),
            ("interval", tyDoc "string"), ("benchmarks", tyDoc "array") ]),
        ("required", .arr [.str "ticker", .str "period"]) ],
    output_schema := .obj
      [ ("type", .str "object"),
        ("properties", .obj
          [ ("ticker", tyDoc "string"), ("period", tyDoc "string"),
            ("prices", tyDoc "object"), ("trend", tyDoc "object"),
            ("risk", tyDoc "object"), ("volume", tyDoc "object") ]) ],
    description := "Fetch technical analysis metrics (returns, volatility, trend, drawdowns, volume z-score, ATR, SMA)",
    usage_examples :=
      [ "What's the 1-year trend for NVDA?",
        "Show me volatility for AAPL",
        "Compare price movements for tech stocks" ],
    budget_per_ticker := 1 }

/-- The `fundamentals_events` tool definition from
`ResearchAgent._initialize_tool_registry`. -/
def fundamentals_tool : Tool :=
  { name := "fundamentals_events",
    input_schema := .obj
      [ ("type", .str "object"),
        ("properties", .obj
          [ ("ticker", tyDoc "string"), ("fields", tyDoc "array"),
            ("include_calendar", tyDoc "boolean"), ("lookback_days", tyDoc "integer") ]),
        ("required", .arr [.str "ticker"]) ],
    output_schema := .obj
      [ ("type", .str "object"),
        ("properties", .obj
          [ ("ticker", tyDoc "string"), ("fundamentals", tyDoc "object"),
            ("calendar", tyDoc "array") ]) ],
    description := "Fetch company fundamentals (P/E, EPS, market cap, dividend, etc.) and upcoming earnings calendar",
    usage_examples :=
      [ "What's NVDA's P/E ratio and earnings next quarter?",
        "Show me EPS and dividend yield for AAPL",
        "When's the next earnings date?" ],
    budget_per_ticker := 1 }

/-- `SENTIMENT_ANALYSIS_SCHEMA` from `tools/sentiment_analysis.py`. -/
def SENTIMENT_ANALYSIS_SCHEMA : Json :=
  .obj
    [ ("type", .str "object"),
      ("properties", .obj
        [ ("ticker", .obj [("type", .str "string"),
            ("description", .str "Stock ticker symbol")]),
          ("lookback_days", .obj [("type", .str "integer"),
            ("description", .str "Number of days of news history to analyze")]) ]),
      ("required", .arr [.str "ticker"]) ]

/-- `SENTIMENT_ANALYSIS_OUTPUT_SCHEMA` from `tools/sentiment_analysis.py`. -/
def SENTIMENT_ANALYSIS_OUTPUT_SCHEMA : Json :=
  .obj
    [ ("type", .str "object"),
      ("properties", .obj
        [ ("ticker", tyDoc "string"), ("asof", tyDoc "string"),
          ("overall_sentiment", tyDoc "number"),
          ("components", .obj
            [ ("type", .str "object"),
              ("properties", .obj
                [ ("news_sentiment", tyDoc "number"),
                  ("analyst_sentiment", tyDoc "number") ]) ]),
          ("metadata", .obj
            [ ("type", .str "object"),
              ("properties", .obj
                [ ("news_articles_analyzed", tyDoc "integer"),
                  ("analyst_ratings", tyDoc "object"),
                  ("consensus", tyDoc "string") ]) ]),
          ("trend", tyDoc "string"),
          ("top_headlines", .obj [("type", .str "array"), ("items", tyDoc "string")]) ]) ]

/-- The `sentiment_analysis` (paid) tool definition from
`ResearchAgent._initialize_tool_registry`. -/
def sentiment_tool : Tool :=
  { name := "sentiment_analysis",
    input_schema := SENTIMENT_ANALYSIS_SCHEMA,
    output_schema := SENTIMENT_ANALYSIS_OUTPUT_SCHEMA,
    description := "Analyze news and analyst sentiment for a stock. Provides sentiment score, components (news vs analyst), and trend analysis.",
    usage_examples :=
      [ "What's the sentiment for NVDA?",
        "Is there positive news about AAPL?",
        "Compare sentiment between tech stocks" ],
    budget_per_ticker := 1,
    is_paid := true,
    pricing_usd_per_call := mkRat 1 20 }

/-- `ResearchAgent._initialize_tool_registry`: register the three tools. -/
def initialize_tool_registry : Except PyErr ToolRegistry := do
  let registry : ToolRegistry := ⟨[]⟩
  let registry ← registry.register (← market_snapshot_tool.post_init)
  let registry ← registry.register (← fundamentals_tool.post_init)
  let registry ← registry.register (← sentiment_tool.post_init)
  return registry

/-- `ResearchAgent._get_available_tools_registry`. -/
def get_available_tools_registry (full : ToolRegistry)
    (requested_tools : Option (List String)) : Except PyErr ToolRegistry := do
  if requested_tools.getD [] ≠ [] then
    let req := requested_tools.getD []
    let (valid, invalid) := full.validate_and_filter_tools req
    if invalid ≠ [] then
      throw (.valueError ("Invalid tool(s): " ++ pyListRepr invalid ++
        ". Available tools: " ++ pyListRepr full.list_names))
    full.create_filtered_registry valid
  else
    let free_tools := (full.get_all.filter (fun kv => !kv.snd.is_paid)).map (·.fst)
    full.create_filtered_registry free_tools

/-- The state of a `ResearchAgent` after `__init__`.  `self.llm` is
`LLMClient()` exactly when the effective `use_llm` is true, so the client's
presence is identified with the stored `use_llm` flag; whether that client
is *enabled* (an API key is configured) lives in the environment. -/
structure ResearchAgent where
  offline : Bool
  use_llm : Bool
  track_costs : Bool
  max_tool_calls : Nat
  max_tickers : Nat
  allowed_periods : List String
  proxy_tickers : List String
  full_registry : ToolRegistry
  registry : ToolRegistry
deriving Repr, DecidableEq

/-- `ResearchAgent.__init__`. -/
def ResearchAgent.init (offline : Bool := false) (use_llm : Bool := true)
    (track_costs : Bool := true) (available_tools : Option (List String) := none) :
    Except PyErr ResearchAgent := do
  let use_llm := use_llm && !offline
  let track_costs := track_costs && use_llm
  let full ← initialize_tool_registry
  let registry ← get_available_tools_registry full available_tools
  return { offline := offline, use_llm := use_llm, track_costs := track_costs,
           max_tool_calls := 6, max_tickers := 5,
           allowed_periods := ["1mo", "3mo", "6mo", "1y"],
           proxy_tickers := ["SPY", "QQQ", "TLT", "GLD"],
           full_registry := full, registry := registry }

/-- `d[k]` subscripting on a dict: raises `KeyError` when the key is
absent. -/
def Json.item (v : Json) (k : String) : Except PyErr Json :=
  match v.get? k with
  | some x => .ok x
  | none => .error (.keyError k)

/-- Result of `LLMClient.infer_tickers` as consumed by `run`: the
`"tickers"` entry (default `[]`) and the `"llm_error"` entry (`.null`
models an absent key). -/
structure InferResult where
  tickers : List String := []
  llm_error : Json := .null

/-- One entry of the `"tools"` list of a tool-routing decision:
`tool_spec.get("tool")` (may be `None`) and `tool_spec.get("tickers", [])`. -/
structure ToolSpecR where
  tool : Option String := none
  tickers : List String := []

/-- Result of `LLMClient.decide_tools` as consumed by
`_decide_and_call_tools_llm`. -/
structure DecideResult where
  tools : List ToolSpecR := []
  llm_error : Json := .null

/-- Result of `LLMClient.generate_summary` as consumed by `run`; each
field is the dict entry of the same name, with `.null` modelling an
absent key. -/
structure SummaryResult where
  thesis_bullets : Json := .null
  risks : Json := .null
  llm_error : Json := .null
  llm_tokens : Json := .null
  llm_provider : Json := .null
  llm_model : Json := .null

/-- The external collaborators of one request, as the spec's §2 lists
them: the LLM backend (enabled flag plus the three call types), the data
provider's `get_info` (an exception inside `_validate_tickers` is caught
and treated exactly like an empty dict, so emptiness models both), the
tool handlers (keyed by offline flag, tool name, kwargs and attempt
number, so a retry may observe a different output), and the cost
analyzer's `track_query` (returns the `to_dict()` of the analysis). -/
structure Env where
  llm_enabled : Bool
  infer_tickers : String → InferResult
  decide_tools : String → List String → String → DecideResult
  generate_summary : String → List String → Json → Json → SummaryResult
  get_info : String → Json
  tool_out : Bool → String → Json → Nat → Json
  track_query : String → List String → String → Json → Json → Json → Json → List (String × Json)

/-- The handler attributes that `getattr(mocks, name)` can resolve to a
tool implementation in `mocks.py`. -/
def mocksToolNames : List String :=
  ["market_snapshot", "fundamentals_events", "sentiment_analysis"]

/-- Per-request mutable state threaded through the tool-calling phase of
`run`: the accumulators created at `agent.py:399-405` plus the
`output["limitations"]` list that `_call_tool` appends to. -/
structure RunSt where
  snapshots : List (String × Json) := []
  fundamentals_by_ticker : List (String × Json) := []
  tool_returns : List (String × Json) := []
  tool_calls : List Json := []
  data_used : List String := []
  thesis_bullets : List String := []
  risks : List String := []
  limitations : List String := []
deriving Repr, DecidableEq

/-- `tool_returns[ticker][tool_name] = payload`, creating
`tool_returns[ticker] = {}` first when the ticker key is new (the
`if ticker not in tool_returns` idiom of the source). -/
def setToolReturn (tr : List (String × Json)) (ticker tool : String) (payload : Json) :
    List (String × Json) :=
  match dictGet tr ticker with
  | none => tr ++ [(ticker, Json.obj [(tool, payload)])]
  | some inner => dictSet tr ticker (inner.setKey tool payload)

/-- `ResearchAgent._validate_tickers`: a ticker is valid iff the provider
returns truthy info for it (provider exceptions are caught and treated as
empty info). -/
def validate_tickers (env : Env) (tickers : List String) : List String × List String :=
  (tickers.filter (fun t => (env.get_info t).truthy),
   tickers.filter (fun t => !(env.get_info t).truthy))

/-- `ResearchAgent._call_tool`: record the call, dispatch the handler by
name (`getattr(mocks, name)` offline, the imported tool functions
otherwise), validate the output, retry once on schema failure, and on a
second failure degrade to the `INVALID_OUTPUT` error payload plus a
limitation.  `validate_schema` raising (`KeyError` for a name without a
`SCHEMAS` entry) propagates. -/
def ResearchAgent.call_tool (A : ResearchAgent) (env : Env) (name : String) (args : Json)
    (st : RunSt) : Except PyErr (Json × RunSt) :=
  let st := { st with
    tool_calls := st.tool_calls ++ [Json.obj [("name", .str name), ("args", args)]] }
  if A.offline && !(mocksToolNames.contains name) then
    .error (.attributeError ("module react_investment_research.mocks has no attribute " ++
      pyQuote name))
  else if !A.offline && (name ≠ "market_snapshot" && name ≠ "fundamentals_events" &&
      name ≠ "sentiment_analysis") then
    .error (.valueError ("Unknown tool: " ++ name))
  else
    let payload := env.tool_out A.offline name args 0
    match validate_schema name payload with
    | .error e => .error e
    | .ok (true, _) => .ok (payload, st)
    | .ok (false, _) =>
        let payload := env.tool_out A.offline name args 1
        match validate_schema name payload with
        | .error e => .error e
        | .ok (true, _) => .ok (payload, st)
        | .ok (false, error) =>
            let st := { st with limitations := st.limitations ++
              [name ++ " output invalid: " ++
                (match error with | some e => e | none => "None")] }
            .ok (Json.obj [("error", .str "INVALID_OUTPUT"),
              ("ticker", args.getD "ticker" (.str "")),
              ("reason", .str (match error with
                | some e => if e ≠ "" then e else "schema"
                | none => "schema"))], st)

/-- Exact product of rationals via `mkRat` (kernel-computable). -/
def ratMul (a b : Rat) : Rat := mkRat (a.num * b.num) (a.den * b.den)

/-- Exact difference of rationals via `mkRat` (kernel-computable). -/
def ratSub (a b : Rat) : Rat := mkRat (a.num * (b.den : Int) - b.num * (a.den : Int)) (a.den * b.den)

/-- Round-half-even of a rational (CPython float formatting rounds the
binary float half-to-even; the rational model rounds the exact value). -/
def roundHalfEven (q : Rat) : Int :=
  let f := q.floor
  let frac := ratSub q (mkRat f 1)
  if mkRat 1 2 < frac then f + 1
  else if frac < mkRat 1 2 then f
  else if f % 2 = 0 then f else f + 1

/-- Pad a digit string on the left with zeros to a given width. -/
def padZeros (s : String) (n : Nat) : String :=
  if s.length < n then String.mk (List.replicate (n - s.length) (Char.ofNat 48)) ++ s else s

/-- Python's fixed-point format `f"{q:.ndf}"` on the rational model. -/
def fmtFixed (nd : Nat) (q : Rat) : String :=
  let scaled := roundHalfEven (ratMul q (mkRat ((10 ^ nd : Nat) : Int) 1))
  let sign := if scaled < 0 then "-" else ""
  let a := scaled.natAbs
  if nd = 0 then sign ++ toString (a : Nat)
  else sign ++ toString (a / 10 ^ nd) ++ "." ++ padZeros (toString (a % 10 ^ nd)) nd

/-- Read a numeric field (a `:.1f`/`:.2f` format or an order comparison on
a non-number raises in Python; the model folds both into `valueError`). -/
def jNum (v : Json) : Except PyErr Rat :=
  match v with
  | .num q => .ok q
  | _ => .error (.valueError "unsupported operand for a numeric operation")

/-- `ResearchAgent._summarize_snapshot`: one thesis line per snapshot and
at most one risk line; the volatility risk line is computed first and the
drawdown risk line overwrites it when both conditions hold. -/
def summarize_snapshot (ticker : String) (snapshot : Json) :
    Except PyErr (String × Option String) := do
  if snapshot.hasKey "error" then
    return (ticker ++ ": snapshot unavailable", some "Data unavailable")
  let trend ← (← snapshot.item "trend").item "trend_label"
  let ret ← jNum (← (← snapshot.item "prices").item "return_pct")
  let vol ← jNum (← (← snapshot.item "risk").item "volatility_ann_pct")
  let period ← snapshot.item "period"
  let thesis := ticker ++ ": " ++ pyStr trend ++ " trend, return " ++ fmtFixed 2 ret ++
    "% over " ++ pyStr period
  let risk : Option String := none
  let risk := if vol ≥ 40 then
    some (ticker ++ ": high volatility (" ++ fmtFixed 1 vol ++ "%)") else risk
  let dd ← jNum (← (← snapshot.item "prices").item "max_drawdown_pct")
  let risk := if dd ≤ -20 then
    some (ticker ++ ": large drawdown (" ++ fmtFixed 1 dd ++ "%)") else risk
  return (thesis, risk)

/-- The kwargs dict `run`/`_decide_and_call_tools_llm` build for each of
the three dispatchable tools (identical in both call sites in the
source). -/
def toolArgs (name ticker period : String) : Option Json :=
  if name = "market_snapshot" then
    some (.obj [("ticker", .str ticker), ("period", .str period),
      ("interval", .str "1d"), ("benchmarks", .arr [])])
  else if name = "fundamentals_events" then
    some (.obj [("ticker", .str ticker), ("fields", .arr []),
      ("include_calendar", .bool true), ("lookback_days", .num 90)])
  else if name = "sentiment_analysis" then
    some (.obj [("ticker", .str ticker), ("lookback_days", .num 30)])
  else none

/-- Execute one (tool, ticker) pair of an accepted plan entry: the
`if tool_name == ... / elif ...` chain in the ticker loop of
`_decide_and_call_tools_llm` (a registered name outside the chain does
nothing). -/
def ResearchAgent.exec_planned_tool (A : ResearchAgent) (env : Env) (period : String)
    (tool_name ticker : String) (st : RunSt) : Except PyErr RunSt := do
  if tool_name = "market_snapshot" then
    let (snapshot, st) ← A.call_tool env "market_snapshot"
      ((toolArgs "market_snapshot" ticker period).getD .null) st
    return { st with
      snapshots := dictSet st.snapshots ticker snapshot,
      tool_returns := setToolReturn st.tool_returns ticker "market_snapshot" snapshot }
  else if tool_name = "fundamentals_events" then
    let (fundamentals, st) ← A.call_tool env "fundamentals_events"
      ((toolArgs "fundamentals_events" ticker period).getD .null) st
    return { st with
      fundamentals_by_ticker :=
        dictSet st.fundamentals_by_ticker ticker (fundamentals.getD "fundamentals" (.obj [])),
      tool_returns := setToolReturn st.tool_returns ticker "fundamentals_events" fundamentals }
  else if tool_name = "sentiment_analysis" then
    let (sentiment, st) ← A.call_tool env "sentiment_analysis"
      ((toolArgs "sentiment_analysis" ticker period).getD .null) st
    return { st with
      tool_returns := setToolReturn st.tool_returns ticker "sentiment_analysis" sentiment }
  else
    return st

/-- The `for ticker in target_tickers` loop of one plan entry. -/
def ResearchAgent.exec_spec_tickers (A : ResearchAgent) (env : Env) (period : String)
    (tool_name : String) : List String → RunSt → Except PyErr RunSt
  | [], st => .ok st
  | ticker :: rest, st => do
      A.exec_spec_tickers env period tool_name rest
        (← A.exec_planned_tool env period tool_name ticker st)

/-- The `for tool_spec in tools_to_call` loop of
`_decide_and_call_tools_llm`: a plan entry whose tool is not in the
registry is dropped with a limitation; the rest is executed. -/
def ResearchAgent.exec_specs (A : ResearchAgent) (env : Env) (period : String) :
    List ToolSpecR → RunSt → Except PyErr RunSt
  | [], st => .ok st
  | spec :: rest, st =>
      match spec.tool.bind A.registry.get with
      | none =>
          A.exec_specs env period rest { st with limitations := st.limitations ++
            ["Invalid tool requested by LLM: " ++ (match spec.tool with
              | some n => n
              | none => "None")] }
      | some _ => do
          let st ← A.exec_spec_tickers env period (spec.tool.getD "") spec.tickers st
          A.exec_specs env period rest st

/-- `ResearchAgent._decide_and_call_tools_llm`: ask the LLM for a tool
plan (an `llm_error` in the decision falls back to the fixed
market-snapshot/fundamentals plan over all given tickers) and execute
it. -/
def ResearchAgent.decide_and_call_tools_llm (A : ResearchAgent) (env : Env) (query : String)
    (tickers : List String) (period : String) (st : RunSt) : Except PyErr RunSt := do
  let tools_description := A.registry.to_prompt_description
  let tool_decision :=
    if A.use_llm then env.decide_tools query tickers tools_description else {}
  let (tools_to_call, st) :=
    if tool_decision.llm_error.truthy then
      ([ { tool := some "market_snapshot", tickers := tickers },
         { tool := some "fundamentals_events", tickers := tickers } ],
       { st with limitations := st.limitations ++
          ["LLM tool routing failed: " ++ pyStr tool_decision.llm_error] })
    else (tool_decision.tools, st)
  A.exec_specs env period tools_to_call st

/-- The inner `for tool_name in tool_names` loop of the deterministic
fallback pipeline in `run` (names the registry does not know, or outside
the three with argument builders, are skipped by `continue`). -/
def ResearchAgent.fallback_tools_for_ticker (A : ResearchAgent) (env : Env)
    (period ticker : String) : List String → RunSt → Except PyErr RunSt
  | [], st => .ok st
  | name :: rest, st =>
      match A.registry.get name with
      | none => A.fallback_tools_for_ticker env period ticker rest st
      | some _ =>
          match toolArgs name ticker period with
          | none => A.fallback_tools_for_ticker env period ticker rest st
          | some args => do
              let (result, st) ← A.call_tool env name args st
              let st := { st with data_used := st.data_used ++ [name ++ ":" ++ ticker] }
              let funds := result.getD "fundamentals" (.obj [])
              let st :=
                if name = "market_snapshot" then
                  { st with snapshots := dictSet st.snapshots ticker result }
                else if name = "fundamentals_events" then
                  { st with fundamentals_by_ticker :=
                      dictSet st.fundamentals_by_ticker ticker funds }
                else st
              let st := { st with
                tool_returns := setToolReturn st.tool_returns ticker name result }
              A.fallback_tools_for_ticker env period ticker rest st

/-- After the tools of one ticker ran in the fallback pipeline: derive the
thesis/risk bullets from its snapshot and the fundamentals-unavailable
limitation. -/
def ResearchAgent.fallback_ticker_post (ticker : String) (st : RunSt) :
    Except PyErr RunSt := do
  let st ←
    match dictGet st.snapshots ticker with
    | some snap => do
        let (thesis, risk) ← summarize_snapshot ticker snap
        pure { st with
          thesis_bullets := st.thesis_bullets ++ [thesis],
          risks := st.risks ++ (match risk with | some r => [r] | none => []) }
    | none => pure st
  match (dictGet st.tool_returns ticker).bind (fun d => d.get? "fundamentals_events") with
  | some fundamentals =>
      if fundamentals.hasKey "error" then
        return { st with limitations := st.limitations ++ [ticker ++ ": fundamentals unavailable"] }
      else return st
  | none => return st

/-- The `for ticker in tickers_for_calls` loop of the deterministic
fallback pipeline in `run`: call every registry tool for the ticker, then
post-process. -/
def ResearchAgent.fallback_pipeline (A : ResearchAgent) (env : Env) (period : String) :
    List String → RunSt → Except PyErr RunSt
  | [], st => .ok st
  | ticker :: rest, st => do
      let st ← A.fallback_tools_for_ticker env period ticker A.registry.list_names st
      let st ← ResearchAgent.fallback_ticker_post ticker st
      A.fallback_pipeline env period rest st

/-- `data_used` as the LLM branch of `run` derives it from
`tool_returns`. -/
def dataUsedOf (tool_returns : List (String × Json)) : List String :=
  tool_returns.flatMap (fun kv =>
    match kv.snd with
    | .obj inner => inner.map (fun e => e.fst ++ ":" ++ kv.fst)
    | _ => [])

/-- The `for ticker in snapshots` summarization loop of the LLM branch of
`run`. -/
def summarizeAll : List (String × Json) → List String × List String →
    Except PyErr (List String × List String)
  | [], acc => .ok acc
  | (ticker, snap) :: rest, (tb, rk) => do
      let (thesis, risk) ← summarize_snapshot ticker snap
      summarizeAll rest (tb ++ [thesis], rk ++ (match risk with | some r => [r] | none => []))

/-- The fundamentals-error scan over `tool_returns` in the LLM branch of
`run`. -/
def fundErrorLimitations (tool_returns : List (String × Json)) : List String :=
  tool_returns.flatMap (fun kv =>
    match kv.snd.get? "fundamentals_events" with
    | some fundamentals =>
        if fundamentals.hasKey "error" then [kv.fst ++ ": fundamentals unavailable"] else []
    | none => [])

/-- The dedup-with-cap loop over LLM-inferred tickers in `run` (first-seen
order, stop as soon as `max_tickers` symbols are kept). -/
def dedupCap (maxT : Nat) : List String → List String → List String
  | [], acc => acc
  | t :: rest, acc =>
      if acc.contains t then dedupCap maxT rest acc
      else
        let acc := acc ++ [t]
        if maxT ≤ acc.length then acc else dedupCap maxT rest acc

/-- The output document of one request: the dict `_safe_output` creates,
with the fields `run` later assigns.  `summary.thesis_bullets` and
`summary.risks` are arbitrary JSON because the LLM override installs
whatever truthy value `generate_summary` returned; `cost_analysis` is
`None` or the analyzer's dict. -/
structure OutputDoc where
  query : String
  tickers : List String
  thesis_bullets : Json
  risks : Json
  tickers_source : String
  tickers_inferred : List String
  fundamentals : List (String × Json)
  tool_returns : List (String × Json)
  data_used : List String
  tool_calls : List Json
  limitations : List String
  disclaimer : String
  cost_analysis : Json
deriving Repr, DecidableEq

/-- `_safe_output` from `agent.py`. -/
def safe_output (query : String) (tickers : List String) : OutputDoc :=
  { query := query, tickers := tickers, thesis_bullets := .arr [], risks := .arr [],
    tickers_source := "explicit", tickers_inferred := [], fundamentals := [],
    tool_returns := [], data_used := [], tool_calls := [], limitations := [],
    disclaimer := "Research summary, not financial advice.", cost_analysis := .null }

/-- `_json_safe` from `agent.py` normalizes `datetime`/`date` leaves to ISO
strings and recurses through containers; on values of the JSON model (which
has no datetime constructor) it is the identity. -/
def json_safe (v : Json) : Json := v

/-- The JSON document an `OutputDoc` denotes, with the keys in the
insertion order of `_safe_output`. -/
def OutputDoc.toJson (d : OutputDoc) : Json :=
  .obj
    [ ("query", .str d.query),
      ("tickers", .arr (d.tickers.map .str)),
      ("summary", .obj [("thesis_bullets", d.thesis_bullets), ("risks", d.risks)]),
      ("tickers_source", .str d.tickers_source),
      ("tickers_inferred", .arr (d.tickers_inferred.map .str)),
      ("fundamentals", .obj d.fundamentals),
      ("tool_returns", .obj d.tool_returns),
      ("data_used", .arr (d.data_used.map .str)),
      ("tool_calls", .arr d.tool_calls),
      ("limitations", .arr (d.limitations.map .str)),
      ("disclaimer", .str d.disclaimer),
      ("cost_analysis", d.cost_analysis) ]

/-- Ticker resolution, truncation and period validation
(`agent.py:338-381`): the explicit/LLM-inferred/proxy ticker pipeline.
Returns the resolved tickers, the provenance tag, the inferred tickers,
the limitations collected so far and the validated period. -/
def ResearchAgent.resolve_request (A : ResearchAgent) (env : Env) (query : String)
    (tickersArg : Option (List String)) (period : String) :
    List String × String × List String × List String × String :=
  let tickers := ((tickersArg.getD []).filter (fun t => t ≠ "")).map pyUpper
  let tickers_source := if tickers ≠ [] then "explicit" else "proxy"
  let tickers_inferred : List String := []
  let limitations : List String := []
  let (tickers, tickers_source, tickers_inferred, limitations) :=
    if tickers = [] then
      if A.use_llm && env.llm_enabled && !A.offline then
        let inference := env.infer_tickers query
        let inferred_raw := (inference.tickers.filter (fun t => t ≠ "")).map pyUpper
        let tickers_inferred := dedupCap A.max_tickers inferred_raw []
        let limitations := limitations ++
          (if inference.llm_error.truthy then
            ["LLM ticker inference failed: " ++ pyStr inference.llm_error] else [])
        let (valid, invalid) := validate_tickers env tickers_inferred
        let limitations := limitations ++
          (if invalid ≠ [] then
            ["Invalid tickers inferred: " ++ pyListRepr invalid ++
              ". Please provide explicit tickers."] else [])
        if valid ≠ [] then
          (valid, "llm", tickers_inferred, limitations)
        else
          (A.proxy_tickers, "proxy", tickers_inferred,
            limitations ++ ["No valid tickers inferred. Using proxy tickers."])
      else
        (A.proxy_tickers, "proxy", tickers_inferred,
          limitations ++ ["No tickers provided. Using proxy tickers."])
    else
      (tickers, tickers_source, tickers_inferred, limitations)
  let (tickers, limitations) :=
    if A.max_tickers < tickers.length then
      (tickers.take A.max_tickers,
       limitations ++ ["Too many tickers provided. Truncating to max allowed."])
    else (tickers, limitations)
  let (period, limitations) :=
    if !(A.allowed_periods.contains period) then
      ("3mo", limitations ++ ["Invalid period provided. Using default 3mo."])
    else (period, limitations)
  (tickers, tickers_source, tickers_inferred, limitations, period)

/-- The LLM summarization / cost-tracking step of `run`
(`agent.py:478-499`), entered when the LLM client exists and is enabled:
ask for a summary, let truthy `thesis_bullets`/`risks` replace the
deterministic ones, downgrade an `llm_error` to a limitation, and attach
a cost record when tokens were reported and cost tracking is on.
Returns (thesis, risks, state, cost_analysis). -/
def ResearchAgent.llm_summary_step (A : ResearchAgent) (env : Env) (query : String)
    (tickers_for_calls : List String) (period : String) (st : RunSt) :
    Json × Json × RunSt × Json :=
  let llm_summary := env.generate_summary query tickers_for_calls
    (Json.obj st.snapshots) (Json.obj st.fundamentals_by_ticker)
  let thesisJson :=
    if llm_summary.thesis_bullets.truthy then llm_summary.thesis_bullets
    else Json.arr (st.thesis_bullets.map .str)
  let risksJson :=
    if llm_summary.risks.truthy then llm_summary.risks
    else Json.arr (st.risks.map .str)
  let st :=
    if llm_summary.llm_error.truthy then
      { st with limitations := st.limitations ++
          ["LLM error: " ++ pyStr llm_summary.llm_error] }
    else st
  let cost :=
    if A.track_costs && llm_summary.llm_tokens.truthy then
      Json.obj (env.track_query query tickers_for_calls period
        (if llm_summary.llm_provider = .null then .str "unknown"
          else llm_summary.llm_provider)
        (if llm_summary.llm_model = .null then .str "unknown" else llm_summary.llm_model)
        (llm_summary.llm_tokens.getD "input" (.num 0))
        (llm_summary.llm_tokens.getD "output" (.num 0)))
    else Json.null
  (thesisJson, risksJson, st, cost)

/-- Everything `run` does before the final-output schema gate
(`agent.py:337-505`): ticker resolution (§ `resolve_request`), the LLM
disabled note, the call budget, LLM routing or the deterministic fallback
pipeline, LLM summarization/cost tracking, and document assembly. -/
def ResearchAgent.run_core (A : ResearchAgent) (env : Env) (query : String)
    (tickersArg : Option (List String)) (period : String) : Except PyErr OutputDoc := do
  let (tickers, tickers_source, tickers_inferred, limitations, period) :=
    A.resolve_request env query tickersArg period
  let outLims := limitations
  let outLims := outLims ++
    (if A.use_llm && !env.llm_enabled then
      ["LLM disabled: missing API key or client unavailable."] else [])
  let max_tickers_for_budget := A.max_tool_calls / 2
  let (tickers_for_calls, outLims) :=
    if max_tickers_for_budget < tickers.length then
      (tickers.take max_tickers_for_budget,
       outLims ++ ["Tool budget exceeded. Skipping some tickers."])
    else (tickers, outLims)
  let st : RunSt := { limitations := outLims }
  let st ←
    if A.use_llm && env.llm_enabled then do
      let st ← A.decide_and_call_tools_llm env query tickers_for_calls period st
      let st := { st with data_used := st.data_used ++ dataUsedOf st.tool_returns }
      let (tb, rk) ← summarizeAll st.snapshots (st.thesis_bullets, st.risks)
      let st := { st with thesis_bullets := tb, risks := rk }
      pure { st with limitations := st.limitations ++ fundErrorLimitations st.tool_returns }
    else
      A.fallback_pipeline env period tickers_for_calls st
  let r :=
    if A.use_llm && env.llm_enabled then
      A.llm_summary_step env query tickers_for_calls period st
    else
      (Json.arr (st.thesis_bullets.map .str), Json.arr (st.risks.map .str), st, Json.null)
  let thesisJson := r.1
  let risksJson := r.2.1
  let st := r.2.2.1
  let cost := r.2.2.2
  return { safe_output query tickers with
    thesis_bullets := thesisJson, risks := risksJson,
    tickers_source := tickers_source, tickers_inferred := tickers_inferred,
    fundamentals := st.fundamentals_by_ticker,
    tool_returns := st.tool_returns.map (fun kv => (kv.fst, json_safe kv.snd)),
    data_used := st.data_used, tool_calls := st.tool_calls,
    limitations := st.limitations, cost_analysis := cost }

/-- The final-output schema gate of `run` (`agent.py:507-515`): a document
failing `validate_schema("final_output", ...)` is replaced by the minimal
safe document carrying the query, the resolved tickers, the provenance
tag, the inferred tickers and one limitation describing the failure. -/
def final_gate (output : OutputDoc) : Except PyErr OutputDoc :=
  match validate_schema "final_output" output.toJson with
  | .error e => .error e
  | .ok (ok, error) =>
      if ok then .ok output
      else
        let fallback := safe_output output.query output.tickers
        .ok { fallback with
          tickers_source := output.tickers_source,
          tickers_inferred := output.tickers_inferred,
          limitations := fallback.limitations ++
            ["Final output invalid: " ++
              (match error with | some e => e | none => "None")] }

/-- `ResearchAgent.run`: assemble, then gate. -/
def ResearchAgent.run (A : ResearchAgent) (env : Env) (query : String)
    (tickersArg : Option (List String)) (period : String) : Except PyErr OutputDoc := do
  final_gate (← A.run_core env query tickersArg period)

/-- The parsed CLI arguments of `cli.py` (`--query` required, the rest
defaulted as in `_parse_args`). -/
structure CliArgs where
  query : String
  tickers : String := ""
  period : String := "3mo"
  offline : Bool := false
  use_llm : Bool := false
  report_cost : Bool := false
  tools : Option String := none
deriving Repr

/-- ASCII whitespace, as `str.strip` removes by default. -/
def isPySpace (c : Char) : Bool :=
  c.val.toNat = 32 ∨ c.val.toNat = 9 ∨ c.val.toNat = 10 ∨
  c.val.toNat = 13 ∨ c.val.toNat = 11 ∨ c.val.toNat = 12

/-- Python `str.strip` (ASCII whitespace model). -/
def pyStrip (s : String) : String :=
  String.mk (((s.data.dropWhile isPySpace).reverse.dropWhile isPySpace).reverse)

/-- Split a character list on commas (`str.split(",")`; a string without a
comma yields one piece, so the empty string yields `[""]`). -/
def splitCommaChars : List Char → List Char → List (List Char)
  | [], cur => [cur.reverse]
  | c :: cs, cur =>
      if c = Char.ofNat 44 then cur.reverse :: splitCommaChars cs []
      else splitCommaChars cs (c :: cur)

/-- Python `s.split(",")`. -/
def pySplitComma (s : String) : List String :=
  (splitCommaChars s.data []).map String.mk

/-- The comma-split-strip-drop-empties idiom of `cli.py`. -/
def splitCommaStrip (s : String) : List String :=
  ((pySplitComma s).map pyStrip).filter (fun t => t ≠ "")

/-- `cli.main` from `cli.py`, up to the printed JSON document: parse the
ticker and tool lists, construct the agent (a `ValueError` becomes the
printed `{"error": ...}` document instead of raising), run the request,
and null out `cost_analysis` unless `--report-cost` was given. -/
def cli_main (args : CliArgs) (env : Env) : Except PyErr Json := do
  let tickers := (splitCommaStrip args.tickers).map pyUpper
  let available_tools :=
    match args.tools with
    | some s => if s ≠ "" then some (((pySplitComma s).map pyStrip).filter (fun t => t ≠ ""))
        else none
    | none => none
  match ResearchAgent.init args.offline args.use_llm args.report_cost available_tools with
  | .error (.valueError e) => return Json.obj [("error", .str e)]
  | .error other => throw other
  | .ok agent => do
      let result ← agent.run env args.query (some tickers) args.period
      let result :=
        if !args.report_cost then { result with cost_analysis := Json.null } else result
      return result.toJson



/-- Every element enumerated from a mapped string list is a JSON string. -/
theorem enumFrom_str_matches (l : List String) : ∀ n a (b : Json),
    (a, b) ∈ List.enumFrom n (List.map Json.str l) → JTy.stringT.matches b = true := by
  induction l with
  | nil => intro n a b h; simp [List.enumFrom] at h
  | cons x xs ih =>
      intro n a b h
      simp only [List.map, List.enumFrom, List.mem_cons, Prod.mk.injEq] at h
      rcases h with ⟨_, rfl⟩ | h
      · rfl
      · exact ih _ _ _ h

/-- `List.enum` version of `enumFrom_str_matches`. -/
theorem enum_str_matches (l : List String) : ∀ a (b : Json),
    (a, b) ∈ (List.map Json.str l).enum → JTy.stringT.matches b = true := by
  intro a b h
  exact enumFrom_str_matches l 0 a b (by simpa [List.enum] using h)

/-- A string array validates against the `{"type": "array", "items":
{"type": "string"}}` schema. -/
theorem schemaErrors_arr_str (l : List String) (path : List PElem) :
    schemaErrors (.arrOf (.ty .stringT)) path (.arr (l.map .str)) = [] := by
  simp [schemaErrors]
  intro a b h
  exact enum_str_matches l a b h

/-- Any document whose summary lists are string arrays and whose
`cost_analysis` is `None` or a dict validates against the final-output
schema. -/
theorem validate_final_output_of_shapes (d : OutputDoc) (tb rk : List String)
    (htb : d.thesis_bullets = .arr (tb.map .str)) (hrk : d.risks = .arr (rk.map .str))
    (hc : d.cost_analysis = .null ∨ ∃ kvs, d.cost_analysis = .obj kvs) :
    validate_schema "final_output" d.toJson = .ok (true, none) := by
  obtain ⟨q, tks, tbv, rkv, src, inf, fnd, tr, du, tc, lims, disc, cost⟩ := d
  simp only at htb hrk hc
  subst htb hrk
  have hmain : schemaErrors FINAL_OUTPUT_SCHEMA []
      (OutputDoc.toJson ⟨q, tks, .arr (tb.map .str), .arr (rk.map .str), src, inf, fnd, tr,
        du, tc, lims, disc, cost⟩) = [] := by
    rcases hc with hc | ⟨kvs, hc⟩ <;> subst hc <;>
      · simp [OutputDoc.toJson, FINAL_OUTPUT_SCHEMA, schemaErrors, addlErrs, requiredErrs,
          propErrors, anyOfOk, schemaErrors_arr_str, JTy.matches, pySorted]
        exact ⟨enum_str_matches tks, enum_str_matches tb, enum_str_matches rk,
          enum_str_matches inf, enum_str_matches du, enum_str_matches lims⟩
  simp [validate_schema, SCHEMAS, hmain, sortErrs]

/-- A passing `validate_schema` verdict always carries no message. -/
theorem validate_schema_ok_true (n : String) (p : Json) (e : Option String)
    (h : validate_schema n p = .ok (true, e)) : e = none := by
  unfold validate_schema at h
  split at h
  · simp at h
  · split at h <;> simp_all

/-- The fallback document the final gate builds for a failing document. -/
def gate_fallback (out : OutputDoc) (msg : String) : OutputDoc :=
  { safe_output out.query out.tickers with
    tickers_source := out.tickers_source,
    tickers_inferred := out.tickers_inferred,
    limitations := ["Final output invalid: " ++ msg] }

/-- C2.  Every document `run` returns validates against the final-output
schema, and whenever the assembled document fails the schema check the
gate returns (never raises) the minimal safe document carrying the query,
the resolved tickers, the ticker provenance, the inferred tickers and a
single limitation describing the validation failure. -/
theorem C2_final_output_gate :
    (∀ (A : ResearchAgent) (env : Env) (query : String) (tickersArg : Option (List String))
      (period : String) (doc : OutputDoc), A.run env query tickersArg period = .ok doc →
        validate_schema "final_output" doc.toJson = .ok (true, none)) ∧
    (∀ (out : OutputDoc) (msg : String),
      validate_schema "final_output" out.toJson = .ok (false, some msg) →
        final_gate out = .ok (gate_fallback out msg)) := by
  have hgate : ∀ (out doc : OutputDoc), final_gate out = .ok doc →
      validate_schema "final_output" doc.toJson = .ok (true, none) := by
    intro out doc h
    unfold final_gate at h
    split at h
    · simp at h
    · rename_i ok err heq
      split at h
      · cases h
        rename_i hok
        subst hok
        have := validate_schema_ok_true _ _ _ heq
        subst this
        exact heq
      · cases h
        exact validate_final_output_of_shapes _ [] [] rfl rfl (Or.inl rfl)
  constructor
  · intro A env query tickersArg period doc h
    unfold ResearchAgent.run at h
    rcases hc : A.run_core env query tickersArg period with e | out <;> rw [hc] at h <;>
      simp only [Bind.bind, Except.bind] at h
    · exact absurd h (by simp)
    · exact hgate out doc h
  · intro out msg hv
    unfold final_gate
    rw [hv]
    simp [gate_fallback, safe_output]

/-- A minimal concrete environment (LLM disabled, empty provider info,
handlers answering the valid error shape) used to instantiate universally
quantified theorems at concrete inputs. -/
def envOfflineW : Env :=
  { llm_enabled := false,
    infer_tickers := fun _ => {},
    decide_tools := fun _ _ _ => {},
    generate_summary := fun _ _ _ _ => {},
    get_info := fun _ => .obj [],
    tool_out := fun _ _ args _ =>
      Json.obj [("error", .str "NO_DATA"), ("ticker", args.getD "ticker" (.str "")),
        ("reason", .str "mock not found")],
    track_query := fun _ _ _ _ _ _ _ => [] }

/-- An offline agent whose registries are empty: the smallest agent state
on which `run` is easy to evaluate by hand. -/
def agentEmptyW : ResearchAgent :=
  { offline := true, use_llm := false, track_costs := false, max_tool_calls := 6,
    max_tickers := 5, allowed_periods := ["1mo", "3mo", "6mo", "1y"],
    proxy_tickers := ["SPY", "QQQ", "TLT", "GLD"], full_registry := ⟨[]⟩, registry := ⟨[]⟩ }

/-- A document that fails the final-output schema (its `thesis_bullets`
is a number, as an LLM override can produce). -/
def badDocW : OutputDoc := { safe_output "q" [] with thesis_bullets := .num 1 }

/-- Witness for C2 at concrete inputs. -/
theorem C2_final_output_gate_witness :
    validate_schema "final_output" (safe_output "q" ["AAPL"]).toJson = .ok (true, none) ∧
    final_gate badDocW = .ok (gate_fallback badDocW
      ("1 is not of type " ++ pyQuote "array")) :=
  ⟨C2_final_output_gate.1 agentEmptyW envOfflineW "q" (some ["AAPL"]) "3mo"
      (safe_output "q" ["AAPL"]) (by rfl),
   C2_final_output_gate.2 badDocW ("1 is not of type " ++ pyQuote "array") (by rfl)⟩

/-- C3 (code bug).  `sentiment_analysis` is registered in the full tool
registry, yet every `_call_tool` dispatch of it — offline or live, with a
perfectly well-formed handler output — raises `KeyError` from
`validate_schema`, because the `SCHEMAS` table has no
`sentiment_analysis` entry.  The invoker therefore raises for a
registered tool name, not only for unregistered ones. -/
theorem C3_sentiment_dispatch_raises_keyerror :
    (initialize_tool_registry).map (fun r => (r.get "sentiment_analysis").isSome) = .ok true ∧
    ∀ (A : ResearchAgent) (env : Env) (st : RunSt),
      A.call_tool env "sentiment_analysis"
        ((toolArgs "sentiment_analysis" "NVDA" "3mo").getD .null) st =
        .error (.keyError "sentiment_analysis") := by
  refine ⟨by rfl, ?_⟩
  intro A env st
  unfold ResearchAgent.call_tool
  cases hA : A.offline <;> simp [mocksToolNames, validate_schema, SCHEMAS]

/-- An environment whose `market_snapshot` handler returns a first invalid
payload `"a"` and a different invalid payload `"b"` on the retry. -/
def envRetryW : Env :=
  { envOfflineW with tool_out := fun _ _ _ attempt =>
      if attempt = 0 then .str "a" else .str "b" }

/-- The kwargs `run` builds for a `market_snapshot` call on AAPL/3mo. -/
def msArgsW : Json := (toolArgs "market_snapshot" "AAPL" "3mo").getD .null

/-- C4 counterexample.  When both attempts fail validation with different
messages, the synthesized error payload's `reason` (and the recorded
limitation) carry the message of the *second* attempt, not the
first-schema-violation message the claim states: here the first attempt's
message mentions `'a'` but the result carries the `'b'` message. -/
theorem C4_counterexample_reason_is_second_message :
    validate_schema "market_snapshot" (envRetryW.tool_out true "market_snapshot" msArgsW 0) =
      .ok (false, some (pyQuote "a" ++ " is not valid under any of the given schemas")) ∧
    agentEmptyW.call_tool envRetryW "market_snapshot" msArgsW {} =
      .ok (Json.obj [("error", .str "INVALID_OUTPUT"), ("ticker", .str "AAPL"),
        ("reason", .str (pyQuote "b" ++ " is not valid under any of the given schemas"))],
        { tool_calls := [Json.obj [("name", .str "market_snapshot"), ("args", msArgsW)]],
          limitations := ["market_snapshot output invalid: " ++ pyQuote "b" ++
            " is not valid under any of the given schemas"] }) ∧
    (pyQuote "b" ++ " is not valid under any of the given schemas") ≠
      (pyQuote "a" ++ " is not valid under any of the given schemas") := by
  refine ⟨by rfl, by rfl, by decide⟩

/-- C4 (amended).  For every invocation of a dispatchable tool: the call
is recorded in the tool-call log exactly once on every returning outcome;
the handler is consulted on at most the first two attempts (the result
only depends on attempts 0 and 1); and when validation fails on both
attempts the result is exactly the
`{error: INVALID_OUTPUT, ticker, reason}` payload — never a partial
payload — with the `reason` and the appended limitation carrying the
*second* attempt's schema-violation message. -/
theorem C4_invoker_retry_contract (A : ResearchAgent) (env : Env) (name : String)
    (args : Json) (st : RunSt) (hname : name ∈ mocksToolNames) :
    (∀ (r : Json) (st2 : RunSt), A.call_tool env name args st = .ok (r, st2) →
      st2.tool_calls = st.tool_calls ++ [Json.obj [("name", .str name), ("args", args)]]) ∧
    (∀ e₀ e₁ : String,
      validate_schema name (env.tool_out A.offline name args 0) = .ok (false, some e₀) →
      validate_schema name (env.tool_out A.offline name args 1) = .ok (false, some e₁) →
      A.call_tool env name args st = .ok
        (Json.obj [("error", .str "INVALID_OUTPUT"), ("ticker", args.getD "ticker" (.str "")),
          ("reason", .str (if e₁ ≠ "" then e₁ else "schema"))],
         { st with
           tool_calls := st.tool_calls ++ [Json.obj [("name", .str name), ("args", args)]],
           limitations := st.limitations ++ [name ++ " output invalid: " ++ e₁] })) ∧
    (∀ env2 : Env,
      (∀ k, k < 2 → env2.tool_out A.offline name args k = env.tool_out A.offline name args k) →
      A.call_tool env2 name args st = A.call_tool env name args st) := by
  have hdisp₁ : (A.offline && !(mocksToolNames.contains name)) = false := by
    fin_cases hname <;> simp [mocksToolNames]
  have hdisp₂ : (!A.offline && (name ≠ "market_snapshot" && name ≠ "fundamentals_events" &&
      name ≠ "sentiment_analysis")) = false := by
    fin_cases hname <;> simp
  refine ⟨?_, ?_, ?_⟩
  · intro r st2 h
    unfold ResearchAgent.call_tool at h
    rw [hdisp₁, hdisp₂] at h
    simp only [Bool.false_eq_true, if_false] at h
    split at h
    · simp at h
    · rename_i heq
      cases h
      rfl
    · split at h
      · simp at h
      · cases h
        rfl
      · cases h
        rfl
  · intro e₀ e₁ h₀ h₁
    unfold ResearchAgent.call_tool
    rw [hdisp₁, hdisp₂]
    simp only [Bool.false_eq_true, if_false]
    rw [h₀, h₁]
  · intro env2 hagree
    unfold ResearchAgent.call_tool
    rw [hagree 0 (by omega), hagree 1 (by omega)]

/-- Witness for C4 (amended) at a concrete failing tool call. -/
theorem C4_invoker_retry_contract_witness :
    "market_snapshot" ∈ mocksToolNames ∧
    agentEmptyW.call_tool envRetryW "market_snapshot" msArgsW {} =
      .ok (Json.obj [("error", .str "INVALID_OUTPUT"), ("ticker", .str "AAPL"),
        ("reason", .str (pyQuote "b" ++ " is not valid under any of the given schemas"))],
        { tool_calls := [Json.obj [("name", .str "market_snapshot"), ("args", msArgsW)]],
          limitations := ["market_snapshot output invalid: " ++ pyQuote "b" ++
            " is not valid under any of the given schemas"] }) := by
  refine ⟨by decide, ?_⟩
  have h := (C4_invoker_retry_contract agentEmptyW envRetryW "market_snapshot" msArgsW {}
    (by decide)).2.1
    (pyQuote "a" ++ " is not valid under any of the given schemas")
    (pyQuote "b" ++ " is not valid under any of the given schemas")
    (by rfl) (by rfl)
  simpa using h

/-- A schema-shaped (non-error) market snapshot with the four fields the
summarizer reads as parameters and fixed values elsewhere. -/
def mkValidSnapshot (tkr per lbl : String) (ret vol dd : Rat) : Json :=
  .obj [("ticker", .str tkr), ("asof", .str "2024-01-01"), ("period", .str per),
    ("interval", .str "1d"),
    ("prices", .obj [("start", .num 1), ("end", .num 1), ("return_pct", .num ret),
      ("max_drawdown_pct", .num dd)]),
    ("risk", .obj [("volatility_ann_pct", .num vol), ("atr_14", .num 1)]),
    ("trend", .obj [("sma_20", .num 1), ("sma_50", .num 1), ("trend_label", .str lbl)]),
    ("volume", .obj [("avg_20d", .num 1), ("latest", .num 1), ("zscore_latest", .num 1)]),
    ("relative", .arr []), ("notes", .arr [])]

/-- C8.  The summarizer emits exactly one thesis line per ticker — built
from the trend label and return percentage for a valid snapshot, or the
unavailability line for an error snapshot — and at most one risk line,
with the drawdown line (max drawdown ≤ −20%) overriding the volatility
line (annualized volatility ≥ 40%) when both conditions hold. -/
theorem C8_summarizer_one_thesis_one_risk :
    (∀ (tkr : String) (snapshot : Json), snapshot.hasKey "error" = true →
      summarize_snapshot tkr snapshot =
        .ok (tkr ++ ": snapshot unavailable", some "Data unavailable")) ∧
    (∀ (tkr per lbl : String) (ret vol dd : Rat),
      summarize_snapshot tkr (mkValidSnapshot tkr per lbl ret vol dd) =
        .ok (tkr ++ ": " ++ lbl ++ " trend, return " ++ fmtFixed 2 ret ++ "% over " ++ per,
          if dd ≤ -20 then some (tkr ++ ": large drawdown (" ++ fmtFixed 1 dd ++ "%)")
          else if vol ≥ 40 then some (tkr ++ ": high volatility (" ++ fmtFixed 1 vol ++ "%)")
          else none)) ∧
    (∀ (tkr per lbl : String) (ret vol dd : Rat), vol ≥ 40 → dd ≤ -20 →
      summarize_snapshot tkr (mkValidSnapshot tkr per lbl ret vol dd) =
        .ok (tkr ++ ": " ++ lbl ++ " trend, return " ++ fmtFixed 2 ret ++ "% over " ++ per,
          some (tkr ++ ": large drawdown (" ++ fmtFixed 1 dd ++ "%)"))) := by
  have h₂ : ∀ (tkr per lbl : String) (ret vol dd : Rat),
      summarize_snapshot tkr (mkValidSnapshot tkr per lbl ret vol dd) =
        .ok (tkr ++ ": " ++ lbl ++ " trend, return " ++ fmtFixed 2 ret ++ "% over " ++ per,
          if dd ≤ -20 then some (tkr ++ ": large drawdown (" ++ fmtFixed 1 dd ++ "%)")
          else if vol ≥ 40 then some (tkr ++ ": high volatility (" ++ fmtFixed 1 vol ++ "%)")
          else none) := by
    intro tkr per lbl ret vol dd
    unfold summarize_snapshot mkValidSnapshot
    rfl
  refine ⟨?_, h₂, ?_⟩
  · intro tkr snapshot h
    unfold summarize_snapshot
    rw [h]
    rfl
  · intro tkr per lbl ret vol dd hvol hdd
    rw [h₂ tkr per lbl ret vol dd, if_pos hdd]

/-- Witness for C8 at concrete snapshots (both risk conditions hold, the
drawdown line wins; an error snapshot yields the unavailability lines). -/
theorem C8_summarizer_witness :
    summarize_snapshot "T" (.obj [("error", .str "NO_DATA"), ("ticker", .str "T"),
      ("reason", .str "x")]) = .ok ("T: snapshot unavailable", some "Data unavailable") ∧
    summarize_snapshot "T" (mkValidSnapshot "T" "3mo" "up" (mkRat 105 10) 45 (-25)) =
      .ok ("T: up trend, return 10.50% over 3mo", some "T: large drawdown (-25.0%)") := by
  constructor
  · exact C8_summarizer_one_thesis_one_risk.1 "T" _ (by rfl)
  · have h := C8_summarizer_one_thesis_one_risk.2.2 "T" "3mo" "up" (mkRat 105 10) 45 (-25)
      (by norm_num) (by norm_num)
    simpa using h


/-- The names in the full registry, as `list_names` reports them. -/
def fullRegistryNames : List String :=
  ["fundamentals_events", "market_snapshot", "sentiment_analysis"]

/-- The registry `_initialize_tool_registry` builds. -/
def fullRegW : ToolRegistry :=
  ⟨[("market_snapshot", market_snapshot_tool), ("fundamentals_events", fundamentals_tool),
    ("sentiment_analysis", sentiment_tool)]⟩

/-- `_initialize_tool_registry` succeeds with the three-tool registry. -/
theorem initialize_tool_registry_eq : initialize_tool_registry = .ok fullRegW := by rfl

/-- C7.  Requesting any tool subset containing a name outside the full
registry makes agent construction fail with a `ValueError` naming the
invalid tools and listing the available tools (all-or-nothing: no agent,
hence no partial registry, is produced), and the CLI converts exactly
that failure into a printed `{"error": ...}` JSON document instead of the
normal result, without raising. -/
theorem C7_invalid_tool_request_fails_closed :
    (∀ (req : List String), (fullRegW.validate_and_filter_tools req).snd =
      req.filter (fun n => !(fullRegistryNames.contains n))) ∧
    fullRegW.list_names = fullRegistryNames ∧
    (∀ (offline use_llm track_costs : Bool) (req : List String),
      (fullRegW.validate_and_filter_tools req).snd ≠ [] →
      ResearchAgent.init offline use_llm track_costs (some req) =
        .error (.valueError ("Invalid tool(s): " ++
          pyListRepr (fullRegW.validate_and_filter_tools req).snd ++
          ". Available tools: " ++ pyListRepr fullRegW.list_names))) ∧
    (∀ (args : CliArgs) (env : Env) (s : String), args.tools = some s → s ≠ "" →
      (fullRegW.validate_and_filter_tools
        (((pySplitComma s).map pyStrip).filter (fun t => t ≠ ""))).snd ≠ [] →
      cli_main args env = .ok (Json.obj [("error", .str ("Invalid tool(s): " ++
        pyListRepr (fullRegW.validate_and_filter_tools
          (((pySplitComma s).map pyStrip).filter (fun t => t ≠ ""))).snd ++
        ". Available tools: " ++ pyListRepr fullRegW.list_names))])) := by
  have hinit : ∀ (offline use_llm track_costs : Bool) (req : List String),
      (fullRegW.validate_and_filter_tools req).snd ≠ [] →
      ResearchAgent.init offline use_llm track_costs (some req) =
        .error (.valueError ("Invalid tool(s): " ++
          pyListRepr (fullRegW.validate_and_filter_tools req).snd ++
          ". Available tools: " ++ pyListRepr fullRegW.list_names)) := by
    intro offline use_llm track_costs req hbad
    have hreq : req ≠ [] := by
      intro h
      subst h
      simp [ToolRegistry.validate_and_filter_tools] at hbad
    unfold ResearchAgent.init
    rw [initialize_tool_registry_eq]
    simp only [Bind.bind, Except.bind]
    unfold get_available_tools_registry
    simp only [Option.getD]
    rw [if_pos hreq]
    rcases hvi : fullRegW.validate_and_filter_tools req with ⟨valid, invalid⟩
    rw [hvi] at hbad
    simp only at hbad
    rw [if_pos hbad]
    rfl
  refine ⟨?_, by rfl, hinit, ?_⟩
  · intro req
    simp only [ToolRegistry.validate_and_filter_tools]
    apply List.filter_congr
    intro n _
    cases hdec : fullRegistryNames.contains n
    · have hne : ¬ n = "fundamentals_events" ∧ ¬ n = "market_snapshot" ∧
          ¬ n = "sentiment_analysis" := by
        simpa [fullRegistryNames, not_or] using hdec
      obtain ⟨h1, h2, h3⟩ := hne
      simp only [fullRegW, dictGet, List.find?]
      rw [decide_eq_false (fun h => h2 h.symm), decide_eq_false (fun h => h1 h.symm),
        decide_eq_false (fun h => h3 h.symm)]
      rfl
    · have : n = "fundamentals_events" ∨ n = "market_snapshot" ∨
          n = "sentiment_analysis" := by
        simpa [fullRegistryNames] using hdec
      rcases this with rfl | rfl | rfl <;> simp [fullRegW, dictGet, List.find?]
  · intro args env s hs hsne hbad
    simp only [cli_main, hs]
    rw [if_pos hsne]
    rw [hinit args.offline args.use_llm args.report_cost _ hbad]
    rfl

/-- Witness for C7: the concrete request of `nonexistent_tool`, both at
agent construction and through the CLI. -/
theorem C7_invalid_tool_request_witness :
    ResearchAgent.init true false false (some ["nonexistent_tool"]) =
      .error (.valueError ("Invalid tool(s): " ++ pyListRepr ["nonexistent_tool"] ++
        ". Available tools: " ++ pyListRepr fullRegistryNames)) ∧
    cli_main { query := "q", offline := true, tools := some "nonexistent_tool" } envOfflineW =
      .ok (Json.obj [("error", .str ("Invalid tool(s): " ++ pyListRepr ["nonexistent_tool"] ++
        ". Available tools: " ++ pyListRepr fullRegistryNames))]) := by
  constructor
  · have h := C7_invalid_tool_request_fails_closed.2.2.1 true false false
      ["nonexistent_tool"] (by decide)
    simpa using h
  · have h := C7_invalid_tool_request_fails_closed.2.2.2
      { query := "q", offline := true, tools := some "nonexistent_tool" } envOfflineW
      "nonexistent_tool" rfl (by decide) (by decide)
    simpa using h

/-- An environment whose LLM is enabled and answers the routing query
with a plan naming seven tickers for `market_snapshot` (the routing
prompt merely *asks* the model to stay within the provided tickers; an
adversarial or confused model is free to answer this).  Handlers reply
with the schema-valid error shape. -/
def envAdversarialW : Env :=
  { llm_enabled := true,
    infer_tickers := fun _ => {},
    decide_tools := fun _ _ _ =>
      { tools := [ { tool := some "market_snapshot",
                     tickers := ["T1", "T2", "T3", "T4", "T5", "T6", "T7"] } ] },
    generate_summary := fun _ _ _ _ => {},
    get_info := fun _ => .obj [],
    tool_out := fun _ _ args _ =>
      Json.obj [("error", .str "NO_DATA"), ("ticker", args.getD "ticker" (.str "")),
        ("reason", .str "x")],
    track_query := fun _ _ _ _ _ _ _ => [] }

/-- C1 (code bug).  The six-call ceiling is enforced only by truncating
the *resolved* ticker list before planning; the LLM-routing loop executes
whatever (tool, ticker) pairs the decision contains, uncapped.  A request
with a single resolved ticker whose routing decision names seven tickers
produces a returned (schema-valid) document whose `tool_calls` has length
7 > max_tool_calls = 6. -/
theorem C1_tool_call_ceiling_violated_in_llm_path :
    ((ResearchAgent.init false true true none).bind
      (fun a => a.run envAdversarialW "analyze" (some ["AAPL"]) "3mo")).map
        (fun d => d.tool_calls.length) = .ok 7 ∧
    (ResearchAgent.init false true true none).map (fun a => a.max_tool_calls) = .ok 6 ∧
    ¬ (7 : Nat) ≤ 6 := ⟨by rfl, by rfl, by decide⟩

/-- Is `pat` a prefix of the second list (kernel-computable)? -/
def prefixCheck : List Char → List Char → Bool
  | [], _ => true
  | _ :: _, [] => false
  | a :: as, b :: bs => a = b && prefixCheck as bs

/-- Does `pat` occur contiguously inside the second list? -/
def infixCheck (pat : List Char) : List Char → Bool
  | [] => prefixCheck pat []
  | c :: cs => prefixCheck pat (c :: cs) || infixCheck pat cs

theorem prefixCheck_append (l : List Char) : ∀ t, prefixCheck l (l ++ t) = true := by
  induction l with
  | nil => intro t; rfl
  | cons a as ih => intro t; simp [prefixCheck, ih]

theorem infixCheck_append (pat : List Char) : ∀ (a b : List Char),
    infixCheck pat (a ++ (pat ++ b)) = true := by
  intro a
  induction a with
  | nil =>
      intro b
      cases hp : pat ++ b with
      | nil => simp_all [infixCheck, prefixCheck, List.append_eq_nil]
      | cons c cs => simp [infixCheck, ← hp, prefixCheck_append]
  | cons x xs ih =>
      intro b
      simp [infixCheck, ih]

/-- A string containing `mid` as an infix differs from any string `c`
that does not contain it. -/
theorem string_ne_of_not_infix (mid c : String) (h : infixCheck mid.data c.data = false)
    (a b : String) : a ++ mid ++ b ≠ c := by
  intro hc
  have hd : c.data = a.data ++ (mid.data ++ b.data) := by
    rw [← hc]
    simp [String.data_append, List.append_assoc]
  rw [hd, infixCheck_append] at h
  cases h

/-- Suffix form of `string_ne_of_not_infix`. -/
theorem string_ne_of_not_infix_suffix (mid c : String)
    (h : infixCheck mid.data c.data = false) (a : String) : a ++ mid ≠ c := by
  intro hc
  have hd : c.data = a.data ++ (mid.data ++ []) := by
    rw [← hc]
    simp [String.data_append]
  rw [hd, infixCheck_append] at h
  cases h

/-- Prefix form of `string_ne_of_not_infix`. -/
theorem string_ne_of_not_infix_prefix (mid c : String)
    (h : infixCheck mid.data c.data = false) (b : String) : mid ++ b ≠ c := by
  intro hc
  have hd : c.data = [] ++ (mid.data ++ b.data) := by
    rw [← hc]
    simp [String.data_append]
  rw [hd, infixCheck_append] at h
  cases h

/-- The shapes of every limitation string appended during the
tool-calling and summarization phase of `run` (as opposed to the
resolution-time, budget and LLM-disabled notes, which are appended
before the tool phase starts). -/
def dynLim (x : String) : Prop :=
  (∃ n e, x = n ++ " output invalid: " ++ e) ∨
  (∃ n, x = "Invalid tool requested by LLM: " ++ n) ∨
  (∃ e, x = "LLM tool routing failed: " ++ e) ∨
  (∃ t, x = t ++ ": fundamentals unavailable") ∨
  (∃ e, x = "LLM error: " ++ e)

/-- No tool-phase limitation equals the ticker-truncation note. -/
theorem dynLim_ne_trunc (x : String) (h : dynLim x) :
    x ≠ "Too many tickers provided. Truncating to max allowed." := by
  rcases h with ⟨n, e, rfl⟩ | ⟨n, rfl⟩ | ⟨e, rfl⟩ | ⟨t, rfl⟩ | ⟨e, rfl⟩
  · exact string_ne_of_not_infix " output invalid: " _ (by decide) n e
  · exact string_ne_of_not_infix_prefix "Invalid tool requested by LLM: " _ (by decide) n
  · exact string_ne_of_not_infix_prefix "LLM tool routing failed: " _ (by decide) e
  · exact string_ne_of_not_infix_suffix ": fundamentals unavailable" _ (by decide) t
  · exact string_ne_of_not_infix_prefix "LLM error: " _ (by decide) e

/-- No tool-phase limitation equals the LLM-disabled note. -/
theorem dynLim_ne_disabled (x : String) (h : dynLim x) :
    x ≠ "LLM disabled: missing API key or client unavailable." := by
  rcases h with ⟨n, e, rfl⟩ | ⟨n, rfl⟩ | ⟨e, rfl⟩ | ⟨t, rfl⟩ | ⟨e, rfl⟩
  · exact string_ne_of_not_infix " output invalid: " _ (by decide) n e
  · exact string_ne_of_not_infix_prefix "Invalid tool requested by LLM: " _ (by decide) n
  · exact string_ne_of_not_infix_prefix "LLM tool routing failed: " _ (by decide) e
  · exact string_ne_of_not_infix_suffix ": fundamentals unavailable" _ (by decide) t
  · exact string_ne_of_not_infix_prefix "LLM error: " _ (by decide) e

/-- How one tool-phase step may change the per-request state: the
tool-call log grows only by records `{"name": n, "args": ...}` with `n`
satisfying `allowed`, and the limitations grow only by tool-phase
(`dynLim`) strings.  The other state fields are unconstrained. -/
structure StGrowth (allowed : String → Prop) (st st2 : RunSt) : Prop where
  calls : ∃ tc, st2.tool_calls = st.tool_calls ++ tc ∧
    ∀ r ∈ tc, ∃ n args, r = Json.obj [("name", .str n), ("args", args)] ∧ allowed n
  lims : ∃ lx, st2.limitations = st.limitations ++ lx ∧ ∀ x ∈ lx, dynLim x

theorem StGrowth.rfl {allowed : String → Prop} (st : RunSt) : StGrowth allowed st st :=
  ⟨⟨[], by simp, by simp⟩, ⟨[], by simp, by simp⟩⟩

theorem StGrowth.trans {allowed : String → Prop} {st₁ st₂ st₃ : RunSt}
    (h₁ : StGrowth allowed st₁ st₂) (h₂ : StGrowth allowed st₂ st₃) :
    StGrowth allowed st₁ st₃ := by
  obtain ⟨⟨tc₁, hc₁, hcn₁⟩, ⟨lx₁, hl₁, hln₁⟩⟩ := h₁
  obtain ⟨⟨tc₂, hc₂, hcn₂⟩, ⟨lx₂, hl₂, hln₂⟩⟩ := h₂
  refine ⟨⟨tc₁ ++ tc₂, by rw [hc₂, hc₁, List.append_assoc], ?_⟩,
    ⟨lx₁ ++ lx₂, by rw [hl₂, hl₁, List.append_assoc], ?_⟩⟩
  · intro r hr
    rcases List.mem_append.mp hr with hr | hr
    · exact hcn₁ r hr
    · exact hcn₂ r hr
  · intro x hx
    rcases List.mem_append.mp hx with hx | hx
    · exact hln₁ x hx
    · exact hln₂ x hx

theorem StGrowth.mono {p q : String → Prop} {st st2 : RunSt} (hpq : ∀ n, p n → q n)
    (h : StGrowth p st st2) : StGrowth q st st2 := by
  obtain ⟨⟨tc, hc, hcn⟩, hl⟩ := h
  refine ⟨⟨tc, hc, ?_⟩, hl⟩
  intro r hr
  obtain ⟨n, args, hr, hn⟩ := hcn r hr
  exact ⟨n, args, hr, hpq n hn⟩

/-- `_call_tool` growth: the log gains exactly the one record of this
call, and at most one `output invalid` limitation. -/
theorem call_tool_growth (A : ResearchAgent) (env : Env) (name : String) (args : Json)
    (st : RunSt) (r : Json) (st2 : RunSt) (h : A.call_tool env name args st = .ok (r, st2)) :
    StGrowth (fun n => n = name) st st2 := by
  unfold ResearchAgent.call_tool at h
  split at h
  · simp at h
  · split at h
    · simp at h
    · dsimp only at h
      split at h
      · simp at h
      · cases h
        exact ⟨⟨[Json.obj [("name", .str name), ("args", args)]], by simp, by simp⟩,
          ⟨[], by simp, by simp⟩⟩
      · split at h
        · simp at h
        · cases h
          exact ⟨⟨[Json.obj [("name", .str name), ("args", args)]], by simp, by simp⟩,
            ⟨[], by simp, by simp⟩⟩
        · cases h
          refine ⟨⟨[Json.obj [("name", .str name), ("args", args)]], by simp, by simp⟩,
            ⟨_, rfl, ?_⟩⟩
          intro x hx
          simp only [List.mem_singleton] at hx
          subst hx
          exact Or.inl ⟨name, _, rfl⟩

/-- `exec_planned_tool` growth. -/
theorem exec_planned_tool_growth (A : ResearchAgent) (env : Env) (period tool_name
    ticker : String) (st st2 : RunSt) (h : A.exec_planned_tool env period tool_name ticker st =
    .ok st2) : StGrowth (fun n => n = tool_name) st st2 := by
  unfold ResearchAgent.exec_planned_tool at h
  split at h
  · rename_i hn
    rcases hcall : A.call_tool env "market_snapshot"
        ((toolArgs "market_snapshot" ticker period).getD .null) st with e | ⟨r, st3⟩ <;>
      rw [hcall] at h <;> simp only [Bind.bind, Except.bind] at h
    · simp at h
    · cases h
      have := call_tool_growth A env _ _ st r st3 hcall
      subst hn
      exact ⟨this.calls, this.lims⟩
  · split at h
    · rename_i hn
      rcases hcall : A.call_tool env "fundamentals_events"
          ((toolArgs "fundamentals_events" ticker period).getD .null) st with e | ⟨r, st3⟩ <;>
        rw [hcall] at h <;> simp only [Bind.bind, Except.bind] at h
      · simp at h
      · cases h
        have := call_tool_growth A env _ _ st r st3 hcall
        subst hn
        exact ⟨this.calls, this.lims⟩
    · split at h
      · rename_i hn
        rcases hcall : A.call_tool env "sentiment_analysis"
            ((toolArgs "sentiment_analysis" ticker period).getD .null) st with e | ⟨r, st3⟩ <;>
          rw [hcall] at h <;> simp only [Bind.bind, Except.bind] at h
        · simp at h
        · cases h
          have := call_tool_growth A env _ _ st r st3 hcall
          subst hn
          exact ⟨this.calls, this.lims⟩
      · cases h
        exact StGrowth.rfl _

/-- `exec_spec_tickers` growth. -/
theorem exec_spec_tickers_growth (A : ResearchAgent) (env : Env) (period tool_name : String) :
    ∀ (tickers : List String) (st st2 : RunSt),
      A.exec_spec_tickers env period tool_name tickers st = .ok st2 →
      StGrowth (fun n => n = tool_name) st st2 := by
  intro tickers
  induction tickers with
  | nil =>
      intro st st2 h
      unfold ResearchAgent.exec_spec_tickers at h
      cases h
      exact StGrowth.rfl _
  | cons t rest ih =>
      intro st st2 h
      unfold ResearchAgent.exec_spec_tickers at h
      rcases hstep : A.exec_planned_tool env period tool_name t st with e | st3 <;>
        rw [hstep] at h <;> simp only [Bind.bind, Except.bind] at h
      · simp at h
      · exact (exec_planned_tool_growth A env period tool_name t st st3 hstep).trans
          (ih st3 st2 h)

/-- `exec_specs` growth: every record added names a registered tool. -/
theorem exec_specs_growth (A : ResearchAgent) (env : Env) (period : String) :
    ∀ (specs : List ToolSpecR) (st st2 : RunSt),
      A.exec_specs env period specs st = .ok st2 →
      StGrowth (fun n => (A.registry.get n).isSome) st st2 := by
  intro specs
  induction specs with
  | nil =>
      intro st st2 h
      unfold ResearchAgent.exec_specs at h
      cases h
      exact StGrowth.rfl _
  | cons spec rest ih =>
      intro st st2 h
      unfold ResearchAgent.exec_specs at h
      rcases hget : spec.tool.bind A.registry.get with _ | tool
      · rw [hget] at h
        refine StGrowth.trans ⟨⟨[], by simp, by simp⟩, ⟨_, rfl, ?_⟩⟩ (ih _ st2 h)
        intro x hx
        simp only [List.mem_singleton] at hx
        subst hx
        exact Or.inr (Or.inl ⟨_, rfl⟩)
      · rw [hget] at h
        simp only [Bind.bind] at h
        rcases hstep : A.exec_spec_tickers env period (spec.tool.getD "") spec.tickers st
          with e | st3 <;> rw [hstep] at h <;> simp only [Except.bind] at h
        · simp at h
        · have hreg : (A.registry.get (spec.tool.getD "")).isSome := by
            rcases htool : spec.tool with _ | nm
            · rw [htool] at hget; simp [Option.bind] at hget
            · rw [htool] at hget
              simp only [Option.bind, Option.getD] at hget ⊢
              rw [hget]
              rfl
          refine StGrowth.trans (StGrowth.mono ?_
            (exec_spec_tickers_growth A env period _ spec.tickers st st3 hstep)) (ih st3 st2 h)
          intro n hn
          subst hn
          exact hreg

/-- `_decide_and_call_tools_llm` growth. -/
theorem decide_and_call_growth (A : ResearchAgent) (env : Env) (query : String)
    (tickers : List String) (period : String) (st st2 : RunSt)
    (h : A.decide_and_call_tools_llm env query tickers period st = .ok st2) :
    StGrowth (fun n => (A.registry.get n).isSome) st st2 := by
  unfold ResearchAgent.decide_and_call_tools_llm at h
  dsimp only at h
  split at h
  · by_cases herr :
        (env.decide_tools query tickers A.registry.to_prompt_description).llm_error.truthy = true
    · rw [if_pos herr] at h
      dsimp only at h
      refine StGrowth.trans ⟨⟨[], by simp, by simp⟩, ⟨_, rfl, ?_⟩⟩
        (exec_specs_growth A env period _ _ st2 h)
      intro x hx
      simp only [List.mem_singleton] at hx
      subst hx
      exact Or.inr (Or.inr (Or.inl ⟨_, rfl⟩))
    · rw [if_neg herr] at h
      dsimp only at h
      exact exec_specs_growth A env period _ _ st2 h
  · rw [if_neg (by decide)] at h
    dsimp only at h
    exact exec_specs_growth A env period _ _ st2 h

/-- `fallback_tools_for_ticker` growth. -/
theorem fallback_tools_growth (A : ResearchAgent) (env : Env) (period ticker : String) :
    ∀ (names : List String) (st st2 : RunSt),
      A.fallback_tools_for_ticker env period ticker names st = .ok st2 →
      StGrowth (fun n => (A.registry.get n).isSome) st st2 := by
  intro names
  induction names with
  | nil =>
      intro st st2 h
      unfold ResearchAgent.fallback_tools_for_ticker at h
      cases h
      exact StGrowth.rfl _
  | cons name rest ih =>
      intro st st2 h
      unfold ResearchAgent.fallback_tools_for_ticker at h
      rcases hget : A.registry.get name with _ | tool <;> rw [hget] at h
      · exact ih st st2 h
      · rcases hargs : toolArgs name ticker period with _ | args <;> rw [hargs] at h
        · exact ih st st2 h
        · simp only [Bind.bind] at h
          rcases hcall : A.call_tool env name args st with e | ⟨r, st3⟩ <;>
            rw [hcall] at h <;> simp only [Except.bind] at h
          · simp at h
          · have hg := call_tool_growth A env name args st r st3 hcall
            refine StGrowth.trans (StGrowth.mono ?_ hg)
              (StGrowth.trans ?_ (ih _ st2 h))
            · intro n hn
              subst hn
              rw [hget]
              rfl
            · refine ⟨⟨[], ?_, by simp⟩, ⟨[], ?_, by simp⟩⟩
              · simp only [List.append_nil]
                split <;> first | rfl | (split <;> rfl)
              · simp only [List.append_nil]
                split <;> first | rfl | (split <;> rfl)

/-- `fallback_ticker_post` growth: no tool calls, at most one
fundamentals-unavailable limitation. -/
theorem fallback_ticker_post_growth (ticker : String) (st st2 : RunSt)
    (h : ResearchAgent.fallback_ticker_post ticker st = .ok st2) :
    ∀ allowed : String → Prop, StGrowth allowed st st2 := by
  intro allowed
  unfold ResearchAgent.fallback_ticker_post at h
  simp only [Bind.bind] at h
  rcases hsnap : dictGet st.snapshots ticker with _ | snap <;> rw [hsnap] at h <;>
    simp only [Except.bind] at h
  · simp only [pure, Except.pure] at h
    split at h
    · split at h
      · cases h
        refine ⟨⟨[], by simp, by simp⟩, ⟨_, rfl, ?_⟩⟩
        intro x hx
        simp only [List.mem_singleton] at hx
        subst hx
        exact Or.inr (Or.inr (Or.inr (Or.inl ⟨_, rfl⟩)))
      · cases h
        exact StGrowth.rfl _
    · cases h
      exact StGrowth.rfl _
  · rcases hsum : summarize_snapshot ticker snap with e | ⟨thesis, risk⟩ <;>
      rw [hsum] at h <;> simp only [Except.bind] at h
    · simp at h
    · simp only [pure, Except.pure] at h
      split at h
      · split at h
        · cases h
          refine ⟨⟨[], by simp, by simp⟩, ⟨_, rfl, ?_⟩⟩
          intro x hx
          simp only [List.mem_singleton] at hx
          subst hx
          exact Or.inr (Or.inr (Or.inr (Or.inl ⟨_, rfl⟩)))
        · cases h
          exact ⟨⟨[], by simp, by simp⟩, ⟨[], by simp, by simp⟩⟩
      · cases h
        exact ⟨⟨[], by simp, by simp⟩, ⟨[], by simp, by simp⟩⟩

/-- `fallback_pipeline` growth. -/
theorem fallback_pipeline_growth (A : ResearchAgent) (env : Env) (period : String) :
    ∀ (tickers : List String) (st st2 : RunSt),
      A.fallback_pipeline env period tickers st = .ok st2 →
      StGrowth (fun n => (A.registry.get n).isSome) st st2 := by
  intro tickers
  induction tickers with
  | nil =>
      intro st st2 h
      unfold ResearchAgent.fallback_pipeline at h
      cases h
      exact StGrowth.rfl _
  | cons t rest ih =>
      intro st st2 h
      unfold ResearchAgent.fallback_pipeline at h
      simp only [Bind.bind] at h
      rcases h₁ : A.fallback_tools_for_ticker env period t A.registry.list_names st
        with e | st3 <;> rw [h₁] at h <;> simp only [Except.bind] at h
      · simp at h
      · rcases h₂ : ResearchAgent.fallback_ticker_post t st3 with e | st4 <;>
          rw [h₂] at h <;> simp only [Except.bind] at h
        · simp at h
        · exact ((fallback_tools_growth A env period t _ st st3 h₁).trans
            (fallback_ticker_post_growth t st3 st4 h₂ _)).trans (ih st4 st2 h)

/-- Every limitation produced by the fundamentals-error scan has the
fundamentals-unavailable shape. -/
theorem fundErrorLimitations_shape (tr : List (String × Json)) :
    ∀ x ∈ fundErrorLimitations tr, dynLim x := by
  intro x hx
  unfold fundErrorLimitations at hx
  simp only [List.mem_flatMap] at hx
  obtain ⟨kv, _, hx⟩ := hx
  rcases hget : kv.snd.get? "fundamentals_events" with _ | f <;> rw [hget] at hx
  · exact absurd hx (List.not_mem_nil x)
  · split at hx
    · split at hx
      · rw [List.mem_singleton] at hx
        subst hx
        exact Or.inr (Or.inr (Or.inr (Or.inl ⟨_, rfl⟩)))
      · exact absurd hx (List.not_mem_nil x)
    · exact absurd hx (List.not_mem_nil x)

/-- The summarization step never touches the tool-call log. -/
theorem llm_summary_step_tool_calls (A : ResearchAgent) (env : Env) (q : String)
    (tfc : List String) (p : String) (st : RunSt) :
    (A.llm_summary_step env q tfc p st).2.2.1.tool_calls = st.tool_calls := by
  unfold ResearchAgent.llm_summary_step
  dsimp only
  split
  · rfl
  · rfl

/-- The summarization step only ever appends an `LLM error: ...` note to
the limitations, so a `dynLim`-tailed limitation list stays one. -/
theorem llm_summary_step_lims (A : ResearchAgent) (env : Env) (q : String)
    (tfc : List String) (p : String) (st : RunSt) (base pre : List String)
    (hpre : st.limitations = base ++ pre) (hpren : ∀ x ∈ pre, dynLim x) :
    ∃ extra, (A.llm_summary_step env q tfc p st).2.2.1.limitations = base ++ extra ∧
      ∀ x ∈ extra, dynLim x := by
  unfold ResearchAgent.llm_summary_step
  dsimp only
  split
  · refine ⟨pre ++ ["LLM error: " ++ pyStr (env.generate_summary q tfc
      (Json.obj st.snapshots) (Json.obj st.fundamentals_by_ticker)).llm_error], ?_, ?_⟩
    · dsimp only
      rw [hpre]
      simp [List.append_assoc]
    · intro x hx
      rcases List.mem_append.mp hx with hx | hx
      · exact hpren x hx
      · rw [List.mem_singleton] at hx
        subst hx
        exact Or.inr (Or.inr (Or.inr (Or.inr ⟨_, rfl⟩)))
  · exact ⟨pre, hpre, hpren⟩

/-- Decomposition of a successful `run_core`: the assembled document
carries the resolution results verbatim; its limitations are the
resolution/LLM-disabled/budget notes followed only by tool-phase
(`dynLim`) strings; and every recorded tool call names a tool of the
active registry. -/
theorem run_core_state (A : ResearchAgent) (env : Env) (query : String)
    (tickersArg : Option (List String)) (period : String) (out : OutputDoc)
    (h : A.run_core env query tickersArg period = .ok out) :
    out.query = query ∧
    out.tickers = (A.resolve_request env query tickersArg period).1 ∧
    out.tickers_source = (A.resolve_request env query tickersArg period).2.1 ∧
    out.tickers_inferred = (A.resolve_request env query tickersArg period).2.2.1 ∧
    (∃ extra, out.limitations =
      ((A.resolve_request env query tickersArg period).2.2.2.1 ++
        (if A.use_llm && !env.llm_enabled then
          ["LLM disabled: missing API key or client unavailable."] else []) ++
        (if A.max_tool_calls / 2 < (A.resolve_request env query tickersArg period).1.length
          then ["Tool budget exceeded. Skipping some tickers."] else [])) ++ extra ∧
      ∀ x ∈ extra, dynLim x) ∧
    (∀ r ∈ out.tool_calls, ∃ n args,
      r = Json.obj [("name", .str n), ("args", args)] ∧ (A.registry.get n).isSome) := by
  unfold ResearchAgent.run_core at h
  rcases hres : A.resolve_request env query tickersArg period with
    ⟨tks, src, inf, lims, pd⟩
  rw [hres] at h
  dsimp only at h
  dsimp only
  by_cases hb : A.max_tool_calls / 2 < tks.length <;>
    [rw [if_pos hb] at h ⊢; rw [if_neg hb] at h ⊢] <;>
    dsimp only at h <;>
    split at h
  case pos.isTrue hllm | neg.isTrue hllm =>
    all_goals
    rcases hd : A.decide_and_call_tools_llm env query _ pd _ with e | st1 <;>
      rw [hd] at h <;> simp only [Bind.bind, Except.bind] at h
    · simp at h
    · rcases hs : summarizeAll st1.snapshots (st1.thesis_bullets, st1.risks) with
        e | ⟨tb, rk⟩ <;> rw [hs] at h <;> simp only [Except.bind] at h
      · simp at h
      · simp only [pure, Except.pure] at h
        have hg := decide_and_call_growth A env query _ pd _ st1 hd
        obtain ⟨⟨tc, htc, htcn⟩, ⟨lx, hlx, hlxn⟩⟩ := hg
        cases h
        dsimp only
        refine ⟨rfl, rfl, rfl, rfl, ?_, ?_⟩
        · refine llm_summary_step_lims A env query _ pd _ _
            (lx ++ fundErrorLimitations st1.tool_returns) ?_ ?_
          · dsimp only
            rw [hlx]
            simp [List.append_assoc]
          · intro x hx
            rcases List.mem_append.mp hx with hx | hx
            · exact hlxn x hx
            · exact fundErrorLimitations_shape _ x hx
        · intro r hr
          rw [llm_summary_step_tool_calls] at hr
          dsimp only at hr
          rw [htc] at hr
          simp only [List.nil_append] at hr
          exact htcn r hr
  case pos.isFalse hllm | neg.isFalse hllm =>
    all_goals
    rcases hf : A.fallback_pipeline env pd _ _ with e | st1 <;>
      rw [hf] at h <;> simp only [Bind.bind, Except.bind] at h
    · simp at h
    · simp only [pure, Except.pure] at h
      cases h
      dsimp only
      have hg := fallback_pipeline_growth A env pd _ _ st1 hf
      obtain ⟨⟨tc, htc, htcn⟩, ⟨lx, hlx, hlxn⟩⟩ := hg
      refine ⟨rfl, rfl, rfl, rfl, ⟨lx, by simpa using hlx, hlxn⟩, ?_⟩
      intro r hr
      rw [htc] at hr
      simp only [List.nil_append] at hr
      exact htcn r hr

/-- The explicit-ticker normalization of `run` (`agent.py:337`):
`[t.upper() for t in (tickers or []) if t]` — drop empty strings,
upper-case, keep caller order, no deduplication. -/
def cleanTickers (ts : List String) : List String :=
  (ts.filter (fun t => t ≠ "")).map pyUpper

/-- When the normalized explicit list is non-empty, `resolve_request`
returns it (truncated to `max_tickers` when over), provenance
`"explicit"`, no inferred tickers, and exactly the truncation/period
notes. -/
theorem resolve_request_explicit (A : ResearchAgent) (env : Env) (q : String)
    (ts : List String) (p : String) (hne : cleanTickers ts ≠ []) :
    A.resolve_request env q (some ts) p =
      ((if A.max_tickers < (cleanTickers ts).length then
          (cleanTickers ts).take A.max_tickers else cleanTickers ts),
       "explicit", [],
       ((if A.max_tickers < (cleanTickers ts).length then
          ["Too many tickers provided. Truncating to max allowed."] else []) ++
        (if !(A.allowed_periods.contains p) then
          ["Invalid period provided. Using default 3mo."] else [])),
       if !(A.allowed_periods.contains p) then "3mo" else p) := by
  unfold cleanTickers at hne
  unfold ResearchAgent.resolve_request cleanTickers
  dsimp only [Option.getD]
  rw [if_pos hne, if_neg hne]
  split <;> split <;> rfl

/-- The final-output gate never changes the query, the resolved tickers,
the provenance tag or the inferred tickers of the document it returns. -/
theorem final_gate_preserves (pre out : OutputDoc) (h : final_gate pre = .ok out) :
    out.query = pre.query ∧ out.tickers = pre.tickers ∧
    out.tickers_source = pre.tickers_source ∧
    out.tickers_inferred = pre.tickers_inferred := by
  unfold final_gate at h
  split at h
  · exact Except.noConfusion h
  · split at h
    · cases h
      exact ⟨rfl, rfl, rfl, rfl⟩
    · cases h
      exact ⟨rfl, rfl, rfl, rfl⟩

/-- A successful `run` factors through a successful `run_core` followed by
the gate. -/
theorem run_split (A : ResearchAgent) (env : Env) (query : String)
    (tickersArg : Option (List String)) (period : String) (out : OutputDoc)
    (h : A.run env query tickersArg period = .ok out) :
    ∃ pre, A.run_core env query tickersArg period = .ok pre ∧
      final_gate pre = .ok out := by
  unfold ResearchAgent.run at h
  simp only [Bind.bind, Except.bind] at h
  rcases hc : A.run_core env query tickersArg period with e | pre <;> rw [hc] at h
  · exact Except.noConfusion h
  · exact ⟨pre, rfl, h⟩

/-- Membership in a conditional singleton forces equality with it. -/
theorem mem_ite_singleton {c : Prop} [Decidable c] {s x : String}
    (hx : x ∈ (if c then [s] else [])) : x = s := by
  split at hx
  · exact List.mem_singleton.mp hx
  · exact absurd hx (List.not_mem_nil x)

/-- C6 counterexample.  `["" ]` is a non-empty explicit ticker list, yet
the returned document has provenance `"proxy"` and the proxy tickers, not
`"explicit"`: line 337 drops falsy entries before the non-emptiness test,
so a list of empty strings is treated as no tickers at all. -/
theorem C6_counterexample_empty_string_ticker :
    [""] ≠ ([] : List String) ∧
    (agentEmptyW.run envOfflineW "q" (some [""]) "3mo").map
        (fun out => (out.tickers_source, out.tickers, out.tickers_inferred)) =
      .ok ("proxy", ["SPY", "QQQ", "TLT", "GLD"], []) :=
  ⟨by decide, by rfl⟩

/-- C6 (amended).  For every request whose explicit ticker list still
contains an entry after dropping empty strings: the resolved tickers are
that list upper-cased in caller order without deduplication, truncated to
`max_tickers`; `tickers_source` is `"explicit"`; `tickers_inferred` is
empty; and the pre-gate document carries the truncation limitation
exactly when truncation occurred. -/
theorem C6_explicit_ticker_resolution (A : ResearchAgent) (env : Env) (query : String)
    (ts : List String) (period : String) (out : OutputDoc)
    (hne : cleanTickers ts ≠ [])
    (h : A.run env query (some ts) period = .ok out) :
    out.tickers_source = "explicit" ∧
    out.tickers_inferred = [] ∧
    out.tickers = (if A.max_tickers < (cleanTickers ts).length then
      (cleanTickers ts).take A.max_tickers else cleanTickers ts) ∧
    ∀ pre, A.run_core env query (some ts) period = .ok pre →
      ("Too many tickers provided. Truncating to max allowed." ∈ pre.limitations ↔
        A.max_tickers < (cleanTickers ts).length) := by
  obtain ⟨pre, hc, hg⟩ := run_split A env query (some ts) period out h
  obtain ⟨hq, htk, hsrc, hinf, ⟨extra, hlim, hextra⟩, _⟩ :=
    run_core_state A env query (some ts) period pre hc
  have hrr := resolve_request_explicit A env query ts period hne
  rw [hrr] at hsrc hinf htk
  obtain ⟨gq, gtk, gsrc, ginf⟩ := final_gate_preserves pre out hg
  refine ⟨?_, ?_, ?_, ?_⟩
  · rw [gsrc]
    exact hsrc
  · rw [ginf]
    exact hinf
  · rw [gtk]
    exact htk
  · intro pre2 hc2
    obtain ⟨_, _, _, _, ⟨extra2, hlim2, hextra2⟩, _⟩ :=
      run_core_state A env query (some ts) period pre2 hc2
    rw [hrr] at hlim2
    dsimp only at hlim2
    constructor
    · intro hmem
      by_contra hnt
      simp only [if_neg hnt, List.nil_append] at hlim2
      rw [hlim2] at hmem
      simp only [List.mem_append] at hmem
      rcases hmem with ((hmem | hmem) | hmem) | hmem
      · exact absurd (mem_ite_singleton hmem) (by decide)
      · exact absurd (mem_ite_singleton hmem) (by decide)
      · exact absurd (mem_ite_singleton hmem) (by decide)
      · exact dynLim_ne_trunc _ (hextra2 _ hmem) rfl
    · intro htr
      rw [hlim2]
      simp [htr]

/-- The document a concrete offline explicit-ticker run returns. -/
def outC6W : OutputDoc :=
  match agentEmptyW.run envOfflineW "q" (some ["aapl", "", "msft"]) "3mo" with
  | .ok d => d
  | .error _ => safe_output "" []

/-- The pre-gate document of the same run. -/
def preC6W : OutputDoc :=
  match agentEmptyW.run_core envOfflineW "q" (some ["aapl", "", "msft"]) "3mo" with
  | .ok d => d
  | .error _ => safe_output "" []

/-- Witness for C6 at concrete inputs. -/
theorem C6_explicit_ticker_resolution_witness :
    cleanTickers ["aapl", "", "msft"] = ["AAPL", "MSFT"] ∧
    outC6W.tickers_source = "explicit" ∧ outC6W.tickers_inferred = [] ∧
    outC6W.tickers = ["AAPL", "MSFT"] ∧
    ("Too many tickers provided. Truncating to max allowed." ∈ preC6W.limitations ↔
      agentEmptyW.max_tickers < (cleanTickers ["aapl", "", "msft"]).length) := by
  have h := C6_explicit_ticker_resolution agentEmptyW envOfflineW "q"
    ["aapl", "", "msft"] "3mo" outC6W (by decide) (by rfl)
  refine ⟨by rfl, h.1, h.2.1, ?_, h.2.2.2 preC6W (by rfl)⟩
  rw [h.2.2.1]
  rfl

/-- The default (no tool subset requested) active registry: the free
tools, in full-registry order. -/
def defaultRegW : ToolRegistry :=
  ⟨[("market_snapshot", market_snapshot_tool), ("fundamentals_events", fundamentals_tool)]⟩

/-- Constructing the agent without a tool subset yields the free-tool
registry as active registry and the three-tool registry as full one,
whatever the flags. -/
theorem init_default_registry (offline use_llm track_costs : Bool) (A : ResearchAgent)
    (hA : ResearchAgent.init offline use_llm track_costs none = .ok A) :
    A.registry = defaultRegW ∧ A.full_registry = fullRegW := by
  unfold ResearchAgent.init at hA
  rw [initialize_tool_registry_eq] at hA
  simp only [Bind.bind, Except.bind] at hA
  rw [show get_available_tools_registry fullRegW none = Except.ok defaultRegW from rfl] at hA
  simp only [pure, Except.pure] at hA
  cases hA
  exact ⟨rfl, rfl⟩

/-- C9.  An agent constructed without an explicit tool subset gets as
active registry exactly the registered tools whose `is_paid` flag is
false — `market_snapshot` and `fundamentals_events` — so the paid
`sentiment_analysis` tool is not in the registry and no run ever records
a `sentiment_analysis` tool call. -/
theorem C9_default_registry_excludes_paid :
    ∀ (offline use_llm track_costs : Bool) (A : ResearchAgent),
      ResearchAgent.init offline use_llm track_costs none = .ok A →
      A.registry.tools = A.full_registry.get_all.filter (fun kv => !kv.snd.is_paid) ∧
      A.registry.tools.map (fun kv => kv.fst) = ["market_snapshot", "fundamentals_events"] ∧
      (∀ kv ∈ A.registry.tools, kv.snd.is_paid = false) ∧
      A.registry.get "sentiment_analysis" = none ∧
      (∀ (env : Env) (query : String) (tickersArg : Option (List String)) (period : String)
        (pre : OutputDoc), A.run_core env query tickersArg period = .ok pre →
        ∀ args, Json.obj [("name", .str "sentiment_analysis"), ("args", args)] ∉
          pre.tool_calls) := by
  intro offline use_llm track_costs A hA
  obtain ⟨hreg, hfull⟩ := init_default_registry offline use_llm track_costs A hA
  refine ⟨?_, ?_, ?_, ?_, ?_⟩
  · rw [hreg, hfull]
    rfl
  · rw [hreg]
    rfl
  · intro kv hkv
    rw [hreg] at hkv
    rcases List.mem_cons.mp hkv with rfl | hkv
    · rfl
    · rcases List.mem_cons.mp hkv with rfl | hkv
      · rfl
      · exact absurd hkv (List.not_mem_nil kv)
  · rw [hreg]
    rfl
  · intro env query tickersArg period pre hpre args hmem
    obtain ⟨_, _, _, _, _, htc⟩ := run_core_state A env query tickersArg period pre hpre
    obtain ⟨n, args2, heq, hsome⟩ := htc _ hmem
    simp only [Json.obj.injEq, List.cons.injEq, Prod.mk.injEq, Json.str.injEq,
      and_true, true_and] at heq
    rw [← heq.1, hreg] at hsome
    exact absurd hsome (by decide)

/-- The agent `__init__` builds offline without a tool subset. -/
def agentDefaultW : ResearchAgent :=
  match ResearchAgent.init true false false none with
  | .ok a => a
  | .error _ => agentEmptyW

/-- The pre-gate document of a concrete default-registry offline run. -/
def preC9W : OutputDoc :=
  match agentDefaultW.run_core envOfflineW "q" (some ["AAPL"]) "3mo" with
  | .ok d => d
  | .error _ => safe_output "" []

/-- Witness for C9 at concrete inputs. -/
theorem C9_default_registry_excludes_paid_witness :
    agentDefaultW.registry.tools.map (fun kv => kv.fst) =
      ["market_snapshot", "fundamentals_events"] ∧
    agentDefaultW.registry.get "sentiment_analysis" = none ∧
    Json.obj [("name", .str "sentiment_analysis"), ("args", Json.null)] ∉
      preC9W.tool_calls := by
  have h := C9_default_registry_excludes_paid true false false agentDefaultW (by rfl)
  exact ⟨h.2.1, h.2.2.2.1,
    h.2.2.2.2 envOfflineW "q" (some ["AAPL"]) "3mo" preC9W (by rfl) Json.null⟩

/-- When the agent holds no LLM client, no resolution-time limitation is
the LLM-disabled note (the inference-failure notes need `use_llm`). -/
theorem resolve_lims_no_disabled (A : ResearchAgent) (env : Env) (q : String)
    (tk : Option (List String)) (p : String) (hu : A.use_llm = false) :
    ∀ x ∈ (A.resolve_request env q tk p).2.2.2.1,
      x ≠ "LLM disabled: missing API key or client unavailable." := by
  intro x hx hxe
  subst hxe
  unfold ResearchAgent.resolve_request at hx
  rw [hu] at hx
  simp only [Bool.false_and] at hx
  repeat' (first | split at hx | dsimp only at hx)
  all_goals first
    | exact absurd hx (by decide)
    | exact Bool.noConfusion ‹false = true›

/-- The gate either keeps the limitations or replaces them by the single
`Final output invalid: ...` note. -/
theorem final_gate_limitations (pre out : OutputDoc) (h : final_gate pre = .ok out) :
    out.limitations = pre.limitations ∨
    ∃ e, out.limitations = ["Final output invalid: " ++ e] := by
  unfold final_gate at h
  split at h
  · exact Except.noConfusion h
  · split at h
    · cases h
      exact Or.inl rfl
    · cases h
      exact Or.inr ⟨_, rfl⟩

/-- C10.  Constructing with `offline=True` forces the effective
`use_llm` (and with it `track_costs`) to false, so the constructed agent
— and therefore every run — is independent of the `use_llm` flag, and no
run of such an agent ever carries the `LLM disabled` limitation. -/
theorem C10_offline_independent_of_use_llm :
    ∀ (u1 u2 track_costs : Bool) (tools : Option (List String)),
      ResearchAgent.init true u1 track_costs tools =
        ResearchAgent.init true u2 track_costs tools ∧
      ∀ A, ResearchAgent.init true u1 track_costs tools = .ok A →
        A.use_llm = false ∧ A.track_costs = false ∧ A.offline = true ∧
        ∀ (env : Env) (query : String) (tickersArg : Option (List String))
          (period : String) (out : OutputDoc),
          A.run env query tickersArg period = .ok out →
          "LLM disabled: missing API key or client unavailable." ∉ out.limitations := by
  intro u1 u2 tc tools
  constructor
  · cases u1 <;> cases u2 <;> rfl
  · intro A hA
    have hflags : A.use_llm = false ∧ A.track_costs = false ∧ A.offline = true := by
      unfold ResearchAgent.init at hA
      simp only [Bind.bind, Except.bind] at hA
      rcases hfr : initialize_tool_registry with e | full <;> rw [hfr] at hA <;>
        dsimp only at hA
      · exact Except.noConfusion hA
      · rcases hgr : get_available_tools_registry full tools with e | reg <;>
          rw [hgr] at hA <;> dsimp only at hA
        · exact Except.noConfusion hA
        · simp only [pure, Except.pure] at hA
          cases hA
          refine ⟨?_, ?_, rfl⟩
          · cases u1 <;> rfl
          · cases u1 <;> cases tc <;> rfl
    obtain ⟨hu, htc2, hoff⟩ := hflags
    refine ⟨hu, htc2, hoff, ?_⟩
    intro env query tickersArg period out hrun hmem
    obtain ⟨pre, hc, hg⟩ := run_split A env query tickersArg period out hrun
    rcases final_gate_limitations pre out hg with hL | ⟨e, hL⟩
    · rw [hL] at hmem
      obtain ⟨_, _, _, _, ⟨extra, hlim, hextra⟩, _⟩ :=
        run_core_state A env query tickersArg period pre hc
      rw [hlim] at hmem
      simp only [List.mem_append] at hmem
      rcases hmem with ((hmem | hmem) | hmem) | hmem
      · exact resolve_lims_no_disabled A env query tickersArg period hu _ hmem rfl
      · rw [hu] at hmem
        simp only [Bool.false_and] at hmem
        revert hmem
        decide
      · exact absurd (mem_ite_singleton hmem) (by decide)
      · exact dynLim_ne_disabled _ (hextra _ hmem) rfl
    · rw [hL, List.mem_singleton] at hmem
      exact string_ne_of_not_infix_prefix "Final output invalid: " _ (by decide) e hmem.symm

/-- The agent built offline with `use_llm=True, track_costs=True`. -/
def agentC10W : ResearchAgent :=
  match ResearchAgent.init true true true none with
  | .ok a => a
  | .error _ => agentEmptyW

/-- The document a concrete offline proxy-ticker run of it returns. -/
def outC10W : OutputDoc :=
  match agentC10W.run envOfflineW "q" none "3mo" with
  | .ok d => d
  | .error _ => safe_output "" []

/-- Witness for C10 at concrete inputs. -/
theorem C10_offline_independent_of_use_llm_witness :
    ResearchAgent.init true true true none = ResearchAgent.init true false true none ∧
    agentC10W.use_llm = false ∧ agentC10W.track_costs = false ∧
    "LLM disabled: missing API key or client unavailable." ∉ outC10W.limitations := by
  have h := C10_offline_independent_of_use_llm true false true none
  have h2 := h.2 agentC10W (by rfl)
  exact ⟨h.1, h2.1, h2.2.1, h2.2.2.2 envOfflineW "q" none "3mo" outC10W (by rfl)⟩

/-- A successful `_call_tool` appends exactly its own record to the
tool-call log. -/
theorem call_tool_calls_exact (A : ResearchAgent) (env : Env) (name : String)
    (args : Json) (st : RunSt) (r : Json) (st2 : RunSt)
    (h : A.call_tool env name args st = .ok (r, st2)) :
    st2.tool_calls = st.tool_calls ++ [Json.obj [("name", .str name), ("args", args)]] := by
  unfold ResearchAgent.call_tool at h
  dsimp only at h
  split at h
  · exact Except.noConfusion h
  · split at h
    · exact Except.noConfusion h
    · split at h
      · exact Except.noConfusion h
      · cases h
        rfl
      · split at h
        · exact Except.noConfusion h
        · cases h
          rfl
        · cases h
          rfl

/-- A successful planned-tool execution for one of the three known tool
names appends exactly one record, with the canonical kwargs. -/
theorem exec_planned_tool_calls_exact (A : ResearchAgent) (env : Env) (period : String)
    (name ticker : String) (st st2 : RunSt)
    (hn : name = "market_snapshot" ∨ name = "fundamentals_events" ∨
      name = "sentiment_analysis")
    (h : A.exec_planned_tool env period name ticker st = .ok st2) :
    st2.tool_calls = st.tool_calls ++ [Json.obj [("name", .str name),
      ("args", (toolArgs name ticker period).getD .null)]] := by
  rcases hn with rfl | rfl | rfl <;>
    unfold ResearchAgent.exec_planned_tool at h
  · rw [if_pos rfl] at h
    simp only [Bind.bind, Except.bind] at h
    rcases hct : A.call_tool env "market_snapshot"
        ((toolArgs "market_snapshot" ticker period).getD .null) st with e | ⟨res, stA⟩ <;>
      rw [hct] at h
    · exact Except.noConfusion h
    · simp only [pure, Except.pure] at h
      cases h
      exact call_tool_calls_exact A env "market_snapshot" _ st res stA hct
  · rw [if_neg (by decide), if_pos rfl] at h
    simp only [Bind.bind, Except.bind] at h
    rcases hct : A.call_tool env "fundamentals_events"
        ((toolArgs "fundamentals_events" ticker period).getD .null) st with e | ⟨res, stA⟩ <;>
      rw [hct] at h
    · exact Except.noConfusion h
    · simp only [pure, Except.pure] at h
      cases h
      exact call_tool_calls_exact A env "fundamentals_events" _ st res stA hct
  · rw [if_neg (by decide), if_neg (by decide), if_pos rfl] at h
    simp only [Bind.bind, Except.bind] at h
    rcases hct : A.call_tool env "sentiment_analysis"
        ((toolArgs "sentiment_analysis" ticker period).getD .null) st with e | ⟨res, stA⟩ <;>
      rw [hct] at h
    · exact Except.noConfusion h
    · simp only [pure, Except.pure] at h
      cases h
      exact call_tool_calls_exact A env "sentiment_analysis" _ st res stA hct

/-- The per-ticker loop of one plan entry appends exactly one record per
ticker, in ticker order. -/
theorem exec_spec_tickers_calls_exact (A : ResearchAgent) (env : Env) (period : String)
    (name : String)
    (hn : name = "market_snapshot" ∨ name = "fundamentals_events" ∨
      name = "sentiment_analysis") :
    ∀ (tks : List String) (st st2 : RunSt),
      A.exec_spec_tickers env period name tks st = .ok st2 →
      st2.tool_calls = st.tool_calls ++ tks.map (fun t => Json.obj [("name", .str name),
        ("args", (toolArgs name t period).getD .null)]) := by
  intro tks
  induction tks with
  | nil =>
      intro st st2 h
      cases h
      simp
  | cons t rest ih =>
      intro st st2 h
      unfold ResearchAgent.exec_spec_tickers at h
      simp only [Bind.bind, Except.bind] at h
      rcases he : A.exec_planned_tool env period name t st with e | stA <;> rw [he] at h
      · exact Except.noConfusion h
      · rw [ih stA st2 h, exec_planned_tool_calls_exact A env period name t st stA hn he]
        simp [List.append_assoc]

/-- When the routing decision carries an `llm_error`, the executed plan is
exactly `market_snapshot` then `fundamentals_events` over the given
tickers (provided both are registered), and the log grows by exactly that
cross-product. -/
theorem decide_and_call_llm_error_calls (A : ResearchAgent) (env : Env) (query : String)
    (tks : List String) (period : String) (st st2 : RunSt)
    (hu : A.use_llm = true)
    (hms : (A.registry.get "market_snapshot").isSome)
    (hfe : (A.registry.get "fundamentals_events").isSome)
    (herr : (env.decide_tools query tks A.registry.to_prompt_description).llm_error.truthy
      = true)
    (h : A.decide_and_call_tools_llm env query tks period st = .ok st2) :
    st2.tool_calls = st.tool_calls ++
      tks.map (fun t => Json.obj [("name", .str "market_snapshot"),
        ("args", (toolArgs "market_snapshot" t period).getD .null)]) ++
      tks.map (fun t => Json.obj [("name", .str "fundamentals_events"),
        ("args", (toolArgs "fundamentals_events" t period).getD .null)]) := by
  unfold ResearchAgent.decide_and_call_tools_llm at h
  rw [hu] at h
  dsimp only at h
  rw [if_pos rfl] at h
  rw [if_pos herr] at h
  dsimp only at h
  unfold ResearchAgent.exec_specs at h
  dsimp only [Option.bind] at h
  rcases hg1 : A.registry.get "market_snapshot" with _ | t1
  · rw [hg1] at hms
    exact Bool.noConfusion hms
  · rw [hg1] at h
    simp only [Bind.bind, Except.bind, Option.getD] at h
    rcases he1 : A.exec_spec_tickers env period "market_snapshot" tks
        { st with limitations := st.limitations ++
          ["LLM tool routing failed: " ++
            pyStr (env.decide_tools query tks A.registry.to_prompt_description).llm_error] }
        with e | stA <;> rw [he1] at h
    · exact Except.noConfusion h
    · unfold ResearchAgent.exec_specs at h
      dsimp only [Option.bind] at h
      rcases hg2 : A.registry.get "fundamentals_events" with _ | t2
      · rw [hg2] at hfe
        exact Bool.noConfusion hfe
      · rw [hg2] at h
        simp only [Bind.bind, Except.bind, Option.getD] at h
        rcases he2 : A.exec_spec_tickers env period "fundamentals_events" tks stA
            with e | stB <;> rw [he2] at h
        · exact Except.noConfusion h
        · unfold ResearchAgent.exec_specs at h
          cases h
          have h1 := exec_spec_tickers_calls_exact A env period "market_snapshot"
            (Or.inl rfl) tks _ stA he1
          have h2 := exec_spec_tickers_calls_exact A env period "fundamentals_events"
            (Or.inr (Or.inl rfl)) tks stA _ he2
          rw [h2, h1]

/-- When the routing decision has no error but also no tool entries, the
routing step is a no-op: no tool is invoked and the state is unchanged. -/
theorem decide_and_call_empty_plan (A : ResearchAgent) (env : Env) (query : String)
    (tks : List String) (period : String) (st : RunSt)
    (hu : A.use_llm = true)
    (hne : (env.decide_tools query tks A.registry.to_prompt_description).llm_error.truthy
      = false)
    (hpl : (env.decide_tools query tks A.registry.to_prompt_description).tools = []) :
    A.decide_and_call_tools_llm env query tks period st = .ok st := by
  unfold ResearchAgent.decide_and_call_tools_llm
  rw [hu]
  dsimp only
  rw [if_pos rfl]
  rw [hne]
  rw [if_neg Bool.false_ne_true]
  rw [hpl]
  rfl

/-- The per-ticker post-processing step never touches the tool-call
log. -/
theorem fallback_ticker_post_tool_calls (t : String) (st st2 : RunSt)
    (h : ResearchAgent.fallback_ticker_post t st = .ok st2) :
    st2.tool_calls = st.tool_calls := by
  unfold ResearchAgent.fallback_ticker_post at h
  simp only [Bind.bind, Except.bind] at h
  rcases hs : dictGet st.snapshots t with _ | snap <;> rw [hs] at h <;>
    dsimp only at h
  · simp only [pure, Except.pure] at h
    split at h
    · split at h
      · cases h
        rfl
      · cases h
        rfl
    · cases h
      rfl
  · rcases hss : summarize_snapshot t snap with e | ⟨th, ri⟩ <;> rw [hss] at h <;>
      simp only [pure, Except.pure] at h
    · exact Except.noConfusion h
    · split at h
      · split at h
        · cases h
          rfl
        · cases h
          rfl
      · cases h
        rfl

/-- The fallback name loop for one ticker, when every listed name is
registered and has an argument builder, appends exactly one record per
name, in list order. -/
theorem fallback_tools_calls_exact (A : ResearchAgent) (env : Env) (period t : String) :
    ∀ (names : List String),
      (∀ n ∈ names, (A.registry.get n).isSome = true ∧
        (toolArgs n t period).isSome = true) →
      ∀ (st st2 : RunSt),
        A.fallback_tools_for_ticker env period t names st = .ok st2 →
        st2.tool_calls = st.tool_calls ++ names.map (fun n => Json.obj [("name", .str n),
          ("args", (toolArgs n t period).getD .null)]) := by
  intro names
  induction names with
  | nil =>
      intro _ st st2 h
      cases h
      simp
  | cons n rest ih =>
      intro hyp st st2 h
      obtain ⟨hg, hta⟩ := hyp n (List.mem_cons_self n rest)
      unfold ResearchAgent.fallback_tools_for_ticker at h
      rcases hgg : A.registry.get n with _ | tool
      · rw [hgg] at hg
        exact Bool.noConfusion hg
      · rw [hgg] at h
        dsimp only at h
        rcases htaa : toolArgs n t period with _ | args
        · rw [htaa] at hta
          exact Bool.noConfusion hta
        · rw [htaa] at h
          dsimp only at h
          simp only [Bind.bind, Except.bind] at h
          rcases hct : A.call_tool env n args st with e | ⟨r1, stA⟩ <;> rw [hct] at h
          · exact Except.noConfusion h
          · dsimp only at h
            rw [ih (fun m hm => hyp m (List.mem_cons_of_mem n hm)) _ st2 h]
            rw [List.map_cons]
            have hcc := call_tool_calls_exact A env n args st r1 stA hct
            simp only [apply_ite RunSt.tool_calls, ite_self]
            rw [hcc]
            simp [htaa]

/-- The deterministic fallback pipeline appends, for every ticker in
order, one record per listed registry tool — the full tool-by-ticker
cross-product — provided every listed name is registered with an
argument builder. -/
theorem fallback_pipeline_calls_exact (A : ResearchAgent) (env : Env) (period : String)
    (hyp : ∀ n ∈ A.registry.list_names, (A.registry.get n).isSome = true ∧
      ∀ t, (toolArgs n t period).isSome = true) :
    ∀ (tks : List String) (st st2 : RunSt),
      A.fallback_pipeline env period tks st = .ok st2 →
      st2.tool_calls = st.tool_calls ++ tks.flatMap (fun t =>
        A.registry.list_names.map (fun n => Json.obj [("name", .str n),
          ("args", (toolArgs n t period).getD .null)])) := by
  intro tks
  induction tks with
  | nil =>
      intro st st2 h
      cases h
      simp
  | cons t rest ih =>
      intro st st2 h
      unfold ResearchAgent.fallback_pipeline at h
      simp only [Bind.bind, Except.bind] at h
      rcases hft : A.fallback_tools_for_ticker env period t A.registry.list_names st
        with e | stA <;> rw [hft] at h <;> dsimp only at h
      · exact Except.noConfusion h
      · rcases hpost : ResearchAgent.fallback_ticker_post t stA with e | stB <;>
          rw [hpost] at h
        · exact Except.noConfusion h
        · rw [ih stB st2 h, fallback_ticker_post_tool_calls t stA stB hpost,
            fallback_tools_calls_exact A env period t A.registry.list_names
              (fun n hn => ⟨(hyp n hn).1, (hyp n hn).2 t⟩) st stA hft]
          simp [List.append_assoc]

/-- When no enabled LLM client exists, `run_core` takes the deterministic
fallback, and the assembled document's tool-call log is exactly the full
registry-tool-by-capped-ticker cross-product. -/
theorem run_core_offline_calls (A : ResearchAgent) (env : Env) (query : String)
    (tickersArg : Option (List String)) (period : String) (pre : OutputDoc)
    (hyp : ∀ n ∈ A.registry.list_names, (A.registry.get n).isSome = true ∧
      ∀ t p, (toolArgs n t p).isSome = true)
    (hllm : (A.use_llm && env.llm_enabled) = false)
    (h : A.run_core env query tickersArg period = .ok pre) :
    pre.tool_calls =
      (if A.max_tool_calls / 2 < (A.resolve_request env query tickersArg period).1.length
        then (A.resolve_request env query tickersArg period).1.take (A.max_tool_calls / 2)
        else (A.resolve_request env query tickersArg period).1).flatMap (fun t =>
        A.registry.list_names.map (fun n => Json.obj [("name", .str n),
          ("args", (toolArgs n t
            (A.resolve_request env query tickersArg period).2.2.2.2).getD .null)])) := by
  unfold ResearchAgent.run_core at h
  rcases hres : A.resolve_request env query tickersArg period with ⟨tks, src, inf, lims, pd⟩
  rw [hres] at h
  dsimp only at h
  dsimp only
  by_cases hb : A.max_tool_calls / 2 < tks.length <;>
    [rw [if_pos hb] at h ⊢; rw [if_neg hb] at h ⊢] <;>
    dsimp only at h <;>
    split at h
  case pos.isTrue hllm2 | neg.isTrue hllm2 =>
    all_goals
    rw [hllm] at hllm2
    exact Bool.noConfusion hllm2
  case pos.isFalse hllm2 | neg.isFalse hllm2 =>
    all_goals
    rcases hf : A.fallback_pipeline env pd _ _ with e | st1 <;>
      rw [hf] at h <;> simp only [Bind.bind, Except.bind] at h
    · simp at h
    · simp only [pure, Except.pure] at h
      cases h
      dsimp only
      have hx := fallback_pipeline_calls_exact A env pd
        (fun n hn => ⟨(hyp n hn).1, fun t => (hyp n hn).2 t pd⟩) _ _ st1 hf
      simpa using hx

/-- An LLM-enabled agent built with the default registry. -/
def agentLlmW : ResearchAgent :=
  match ResearchAgent.init false true true none with
  | .ok a => a
  | .error _ => agentEmptyW

/-- An environment whose enabled LLM answers every routing query with an
empty decision (`{}`: no error, no tools). -/
def envEmptyPlanW : Env := { envOfflineW with llm_enabled := true }

/-- C5 counterexample.  With the LLM enabled and healthy but returning a
decision with no usable tool plan (no `llm_error`, empty `tools`), the
run succeeds and invokes *no* tool at all — not the registered-tools ×
resolved-tickers cross-product the claim states for that case.  The code
falls back to the fixed plan only on `llm_error`; an empty plan simply
executes nothing. -/
theorem C5_counterexample_empty_plan :
    agentLlmW.use_llm = true ∧
    agentLlmW.registry.list_names = ["fundamentals_events", "market_snapshot"] ∧
    envEmptyPlanW.llm_enabled = true ∧
    (envEmptyPlanW.decide_tools "q" ["AAPL"]
      agentLlmW.registry.to_prompt_description).llm_error = .null ∧
    (envEmptyPlanW.decide_tools "q" ["AAPL"]
      agentLlmW.registry.to_prompt_description).tools = [] ∧
    (agentLlmW.run envEmptyPlanW "q" (some ["AAPL"]) "3mo").map
      (fun out => out.tool_calls) = .ok [] :=
  ⟨rfl, rfl, rfl, rfl, rfl, by rfl⟩

/-- C5 (amended).  (1) With no enabled LLM client (offline mode or LLM
disabled), the assembled document's tool-call log is exactly the full
registered-tool-by-capped-ticker cross-product, provided every listed
registry tool has an argument builder.  (2) When the LLM routing step
fails (`llm_error`), the executed plan is the fixed
`market_snapshot`-then-`fundamentals_events` sweep over the given
tickers — the full cross-product only for the default registry.  (3) When
the LLM returns a decision with no error and no tool entries, the
routing step invokes nothing at all and leaves the state unchanged. -/
theorem C5_fallback_tool_dispatch :
    (∀ (A : ResearchAgent) (env : Env) (query : String)
        (tickersArg : Option (List String)) (period : String) (pre : OutputDoc),
      (∀ n ∈ A.registry.list_names, (A.registry.get n).isSome = true ∧
        ∀ t p, (toolArgs n t p).isSome = true) →
      (A.use_llm && env.llm_enabled) = false →
      A.run_core env query tickersArg period = .ok pre →
      pre.tool_calls =
        (if A.max_tool_calls / 2 <
            (A.resolve_request env query tickersArg period).1.length
          then (A.resolve_request env query tickersArg period).1.take
            (A.max_tool_calls / 2)
          else (A.resolve_request env query tickersArg period).1).flatMap (fun t =>
          A.registry.list_names.map (fun n => Json.obj [("name", .str n),
            ("args", (toolArgs n t
              (A.resolve_request env query tickersArg period).2.2.2.2).getD .null)]))) ∧
    (∀ (A : ResearchAgent) (env : Env) (query : String) (tks : List String)
        (period : String) (st st2 : RunSt),
      A.use_llm = true →
      (A.registry.get "market_snapshot").isSome = true →
      (A.registry.get "fundamentals_events").isSome = true →
      (env.decide_tools query tks A.registry.to_prompt_description).llm_error.truthy
        = true →
      A.decide_and_call_tools_llm env query tks period st = .ok st2 →
      st2.tool_calls = st.tool_calls ++
        tks.map (fun t => Json.obj [("name", .str "market_snapshot"),
          ("args", (toolArgs "market_snapshot" t period).getD .null)]) ++
        tks.map (fun t => Json.obj [("name", .str "fundamentals_events"),
          ("args", (toolArgs "fundamentals_events" t period).getD .null)])) ∧
    (∀ (A : ResearchAgent) (env : Env) (query : String) (tks : List String)
        (period : String) (st : RunSt),
      A.use_llm = true →
      (env.decide_tools query tks A.registry.to_prompt_description).llm_error.truthy
        = false →
      (env.decide_tools query tks A.registry.to_prompt_description).tools = [] →
      A.decide_and_call_tools_llm env query tks period st = .ok st) :=
  ⟨fun A env query tickersArg period pre hyp hllm h =>
      run_core_offline_calls A env query tickersArg period pre hyp hllm h,
   fun A env query tks period st st2 hu hms hfe herr h =>
      decide_and_call_llm_error_calls A env query tks period st st2 hu hms hfe herr h,
   fun A env query tks period st hu hne hpl =>
      decide_and_call_empty_plan A env query tks period st hu hne hpl⟩

/-- The pre-gate document of a concrete default-registry offline run with
one explicit ticker. -/
def preC5W : OutputDoc :=
  match agentDefaultW.run_core envOfflineW "q" (some ["AAPL"]) "3mo" with
  | .ok d => d
  | .error _ => safe_output "" []

/-- An environment whose enabled LLM fails the routing step. -/
def envLlmErrW : Env :=
  { envOfflineW with
    llm_enabled := true
    decide_tools := fun _ _ _ => ({ llm_error := Json.str "boom" } : DecideResult) }

/-- The state after the routing step under that failing router. -/
def stC5bW : RunSt :=
  match agentLlmW.decide_and_call_tools_llm envLlmErrW "q" ["AAPL"] "3mo" {} with
  | .ok s => s
  | .error _ => {}

/-- Witness for C5 at concrete inputs. -/
theorem C5_fallback_tool_dispatch_witness :
    preC5W.tool_calls =
      [Json.obj [("name", .str "fundamentals_events"),
         ("args", (toolArgs "fundamentals_events" "AAPL" "3mo").getD .null)],
       Json.obj [("name", .str "market_snapshot"),
         ("args", (toolArgs "market_snapshot" "AAPL" "3mo").getD .null)]] ∧
    stC5bW.tool_calls =
      [Json.obj [("name", .str "market_snapshot"),
         ("args", (toolArgs "market_snapshot" "AAPL" "3mo").getD .null)],
       Json.obj [("name", .str "fundamentals_events"),
         ("args", (toolArgs "fundamentals_events" "AAPL" "3mo").getD .null)]] ∧
    agentLlmW.decide_and_call_tools_llm envEmptyPlanW "q" ["AAPL"] "3mo" {} =
      .ok ({} : RunSt) := by
  refine ⟨?_, ?_, ?_⟩
  · have h := C5_fallback_tool_dispatch.1 agentDefaultW envOfflineW "q" (some ["AAPL"])
      "3mo" preC5W
      (by
        intro n hn
        fin_cases hn <;> exact ⟨rfl, fun t p => rfl⟩)
      (by rfl) (by rfl)
    rw [h]
    rfl
  · have h := C5_fallback_tool_dispatch.2.1 agentLlmW envLlmErrW "q" ["AAPL"] "3mo"
      {} stC5bW rfl rfl rfl (by rfl) (by rfl)
    rw [h]
    rfl
  · exact C5_fallback_tool_dispatch.2.2 agentLlmW envEmptyPlanW "q" ["AAPL"] "3mo" {}
      rfl (by rfl) (by rfl)
